import Mathlib

/-!
# locbot: update routing and subscription broadcast

A shallow embedding of `locbot.go`.

* The two SQLite tables (`users`, `groups`, both keyed by an integer primary
  key) are lists of rows; `insert or replace` drops every row with the same key
  and adds the new one, `delete` drops every row with the key, `select ... where`
  returns the first matching row.  Statements are assumed to reach the storage
  engine (no I/O failure), so a lookup fails exactly when no row matches.
* The collaborators the program only calls (the UUID generator, the Telegram
  client, the HTTP client) are oracles in `Env`, indexed by a call counter so
  that two calls may answer differently.
* Every call of one of the program's store functions, of `getProfilePic`, and of
  the two outgoing sinks (`bot.Send`, `s.SendMessage`) is appended to
  `World.trace`, in program order.
* `updateLoop` ranges over the update channel; here it folds `updateLoopBody`
  over a finite list of updates.
* An update has three optional fields.  The transport sets one of them per
  update, and a message with a location has no command; the type allows any
  combination, and `updateLoopBody` is defined on all of them.  Results about
  one kind of update say which other kinds the update must not be at the same
  time; the lemmas about the three blocks hold for every update.
-/

namespace LocBot

/-! ## Package `strings` -/

/-- The predicate `unicode.IsSpace` (Unicode property White_Space), which
`strings.TrimSpace` uses. -/
def isSpace (c : Char) : Bool :=
  c = '\t' || c = '\n' || c.toNat = 0x0B || c.toNat = 0x0C || c = '\r' || c = ' '
    || c.toNat = 0x85 || c.toNat = 0xA0 || c.toNat = 0x1680
    || (0x2000 ≤ c.toNat && c.toNat ≤ 0x200A)
    || c.toNat = 0x2028 || c.toNat = 0x2029 || c.toNat = 0x202F || c.toNat = 0x205F
    || c.toNat = 0x3000

/-- The function `strings.TrimSpace`: drop leading and trailing white space. -/
def TrimSpace (s : String) : String :=
  ⟨((s.data.dropWhile isSpace).reverse.dropWhile isSpace).reverse⟩

/-- The function `strings.ReplaceAll(s, old, new)` for a one-character `old`. -/
def ReplaceAll (s : String) (old : Char) (new : String) : String :=
  ⟨s.data.flatMap (fun c => if c = old then new.data else [c])⟩

/-- Splitting a character list at every occurrence of `sep`. -/
def splitChars (sep : Char) : List Char → List (List Char)
  | [] => [[]]
  | c :: cs =>
    if c = sep then [] :: splitChars sep cs
    else
      match splitChars sep cs with
      | [] => [[c]]
      | h :: t => (c :: h) :: t

/-- The function `strings.Split(s, sep)` for a one-character `sep`. -/
def Split (s : String) (sep : Char) : List String :=
  (splitChars sep s.data).map String.mk

/-! ## Data model -/

/-- A byte slice. -/
abbrev Bytes := List Nat

/-- A finite IEEE-754 double, `mantissa * 2 ^ exponent`.  Coordinates reach the
program through the JSON decoder of the webhook, which rejects anything that is
not a finite number, and the program only copies them. -/
structure Float64 where
  mantissa : Int
  exponent : Int
  deriving DecidableEq, Repr

/-- The Go struct `Configuration`. -/
structure Configuration where
  BotToken : String
  BotDebug : Bool
  ServerPath : String
  BindAddress : String
  GroupLimit : Int
  FetchUserPic : Bool
  ServeMap : Bool
  deriving DecidableEq, Repr

/-- The Go struct `UserLocation`. -/
structure UserLocation where
  Id : Int
  Name : String
  Latitude : Float64
  Longitude : Float64
  Date : Int
  deriving DecidableEq, Repr

/-- The Go struct `Message` (the outgoing event; `Type` is spelled `Typ`). -/
structure Message where
  Typ : String
  UserLocation : UserLocation
  PicPath : String
  deriving DecidableEq, Repr

/-- The Go struct `UserInfo`, a row of table `users`. -/
structure UserInfo where
  Id : Int
  UUID : String
  ProfilePic : Bytes
  deriving DecidableEq, Repr

namespace tgbotapi

/-- The part of `tgbotapi.Chat` the program reads (`Type` is spelled `Typ`). -/
structure Chat where
  ID : Int
  Typ : String
  deriving DecidableEq, Repr

/-- The method `Chat.IsPrivate`. -/
def Chat.IsPrivate (c : Chat) : Bool := c.Typ == "private"

/-- The part of `tgbotapi.User` the program reads. -/
structure User where
  ID : Int
  UserName : String
  deriving DecidableEq, Repr

/-- The struct `tgbotapi.Location`. -/
structure Location where
  Latitude : Float64
  Longitude : Float64
  deriving DecidableEq, Repr

/-- The part of `tgbotapi.ChatMember` the program reads. -/
structure ChatMember where
  Status : String
  deriving DecidableEq, Repr

/-- The part of `tgbotapi.ChatMemberUpdated` the program reads. -/
structure ChatMemberUpdated where
  Chat : Chat
  NewChatMember : ChatMember
  deriving DecidableEq, Repr

/-- The part of `tgbotapi.Message` the program reads.  `Chat` and `From` are
dereferenced unconditionally by the program and are always present in a message
update.  `IsCommand`, `Command` and `CommandArguments` hold what the library
methods of these names return for the message. -/
structure Message where
  Chat : Chat
  From : User
  Date : Int
  Location : Option Location
  IsCommand : Bool
  Command : String
  CommandArguments : String
  deriving DecidableEq, Repr

/-- The part of `tgbotapi.Update` the program reads: three optional fields. -/
structure Update where
  Message : Option tgbotapi.Message
  EditedMessage : Option tgbotapi.Message
  MyChatMember : Option ChatMemberUpdated
  deriving DecidableEq, Repr

/-- What `getProfilePic` reads of the answer of `GetUserProfilePhotos`: the
total count and the file id of `Photos[0][0]`. -/
structure UserProfilePhotos where
  TotalCount : Nat
  FileID : String
  deriving DecidableEq, Repr

end tgbotapi

/-- The JSON object `json.Marshal` writes for a `Message`: keys `type`,
`user_location` (keys `id`, `name`, `lat`, `lng`, `date`) and, unless omitted,
`picture`. -/
structure Envelope where
  type : String
  user_location : UserLocation
  picture : Option String
  deriving DecidableEq, Repr

/-- The two tables of `locbot.db`. -/
structure DB where
  users : List UserInfo
  groups : List (Int × String)
  deriving DecidableEq, Repr

namespace DB

/-- Query `select id, uuid, picture from users where id = ?`. -/
def selectUserByID (db : DB) (id : Int) : Option UserInfo :=
  db.users.find? (fun r => r.Id == id)

/-- Query `select id, uuid, picture from users where uuid = ?`. -/
def selectUserByUUID (db : DB) (uuid : String) : Option UserInfo :=
  db.users.find? (fun r => r.UUID == uuid)

/-- Statement `insert or replace into users(id, uuid, picture) values(?, ?, ?)`. -/
def replaceUser (db : DB) (ui : UserInfo) : DB :=
  { db with users := ui :: db.users.filter (fun r => r.Id != ui.Id) }

/-- Statement `delete from users where id = ?`. -/
def deleteUserRow (db : DB) (id : Int) : DB :=
  { db with users := db.users.filter (fun r => r.Id != id) }

/-- Query `select secret from groups where id = ?`. -/
def selectSecret (db : DB) (id : Int) : Option String :=
  (db.groups.find? (fun g => g.1 == id)).map Prod.snd

/-- Statement `insert or replace into groups(id, secret) values(?, ?)`. -/
def replaceGroup (db : DB) (id : Int) (secret : String) : DB :=
  { db with groups := (id, secret) :: db.groups.filter (fun g => g.1 != id) }

/-- Statement `delete from groups where id = ?`. -/
def deleteGroupRow (db : DB) (id : Int) : DB :=
  { db with groups := db.groups.filter (fun g => g.1 != id) }

end DB

/-- The answer of `http.Get`: only the result of reading the body is used. -/
structure HTTPResponse where
  Body : Except String Bytes

/-- The collaborators, as oracles.  The first argument is the value of the call
counter at the time of the call. -/
structure Env where
  NewString : Nat → String
  GetUserProfilePhotos : Nat → Int → Except String tgbotapi.UserProfilePhotos
  GetFileDirectURL : Nat → String → Except String String
  Get : Nat → String → Except String HTTPResponse

/-- One entry of the call trace. -/
inductive Effect where
  | addUserPic (id : Int) (pic : Bytes)
  | getUserInfoByID (id : Int)
  | getUserInfoByUUID (id : String)
  | deleteUser (id : Int)
  | addGroup (id : Int) (secret : String)
  | getSecret (id : Int)
  | deleteGroup (id : Int)
  | getProfilePic (id : Int)
  | Send (chatID : Int) (text : String) (parseMode : String)
  | SendMessage (name : String) (message : Envelope)
  deriving DecidableEq, Repr

/-- The state the loop runs in: the database, the number of oracle calls made
so far, and the call trace. -/
structure World where
  db : DB
  calls : Nat
  trace : List Effect
  deriving DecidableEq, Repr

/-- Append one entry to the trace. -/
def World.emit (w : World) (e : Effect) : World :=
  { w with trace := w.trace ++ [e] }

/-- What was appended to the trace between `w` and a later world `w1`. -/
def performed (w w1 : World) : List Effect :=
  w1.trace.drop w.trace.length

/-- The call `uuid.NewString()`. -/
def uuid.NewString (env : Env) (w : World) : World × String :=
  ({ w with calls := w.calls + 1 }, env.NewString w.calls)

/-! ## Store functions -/

/-- The function `addUserPic`. -/
def addUserPic (env : Env) (w : World) (id : Int) (pic : Bytes) : World × UserInfo :=
  let w := w.emit (.addUserPic id pic)
  let r := uuid.NewString env w
  let ui : UserInfo := { Id := id, UUID := r.2, ProfilePic := pic }
  ({ r.1 with db := r.1.db.replaceUser ui }, ui)

/-- The function `getUserInfoByID`; `none` is the error return. -/
def getUserInfoByID (w : World) (id : Int) : World × Option UserInfo :=
  (w.emit (.getUserInfoByID id), w.db.selectUserByID id)

/-- The function `getUserInfoByUUID`; `none` is the error return. -/
def getUserInfoByUUID (w : World) (id : String) : World × Option UserInfo :=
  (w.emit (.getUserInfoByUUID id), w.db.selectUserByUUID id)

/-- The function `deleteUser`. -/
def deleteUser (w : World) (id : Int) : World :=
  { w.emit (.deleteUser id) with db := w.db.deleteUserRow id }

/-- The function `addGroup`. -/
def addGroup (w : World) (id : Int) (secret : String) : World :=
  { w.emit (.addGroup id secret) with db := w.db.replaceGroup id secret }

/-- The function `getSecret`; `none` is the error return. -/
def getSecret (w : World) (id : Int) : World × Option String :=
  (w.emit (.getSecret id), w.db.selectSecret id)

/-- The function `deleteGroup`. -/
def deleteGroup (w : World) (id : Int) : World :=
  { w.emit (.deleteGroup id) with db := w.db.deleteGroupRow id }

/-! ## Picture endpoint -/

/-- The part of `http.Request` that `picHandler` reads. -/
structure Request where
  Method : String
  Path : String
  deriving DecidableEq, Repr

/-- A call on the `http.ResponseWriter`. -/
inductive ResponseCall where
  | Write (b : Bytes)
  | WriteHeader (statusCode : Nat)
  deriving DecidableEq, Repr

/-- The function `picHandler`: the calls it makes on the response writer. -/
def picHandler (w : World) (r : Request) : List ResponseCall :=
  if r.Method ≠ "GET" then []
  else
    let path := Split r.Path '/'
    if path.length = 3 ∧ path.getD 1 "" = "pic" then
      let uuid := path.getD 2 ""
      match (getUserInfoByUUID w uuid).2 with
      | some ui => [.Write ui.ProfilePic]
      | none => [.WriteHeader 404]
    else [.WriteHeader 404]

/-- The status `net/http` sends for a handler run: the first `WriteHeader`
code if the handler starts with one, otherwise 200 (implied by the first
`Write`, or by returning without having written anything). -/
def statusOf : List ResponseCall → Nat
  | .WriteHeader n :: _ => n
  | _ => 200

/-- The body bytes `net/http` sends for a handler run. -/
def bodyOf : List ResponseCall → Bytes
  | [] => []
  | .Write b :: rest => b ++ bodyOf rest
  | .WriteHeader _ :: rest => bodyOf rest

/-! ## Update loop -/

/-- The function `getProfilePic` without its bookkeeping: what it returns when
called while the call counter is `n`. -/
def fetchProfilePic (env : Env) (n : Nat) (id : Int) : Except String Bytes :=
  match env.GetUserProfilePhotos n id with
  | .error e => .error e
  | .ok photos =>
    if photos.TotalCount = 0 then .error "no photo"
    else
      match env.GetFileDirectURL n photos.FileID with
      | .error e => .error e
      | .ok url =>
        match env.Get n url with
        | .error e => .error e
        | .ok resp => resp.Body

/-- The function `getProfilePic`. -/
def getProfilePic (env : Env) (w : World) (id : Int) : World × Except String Bytes :=
  let w := w.emit (.getProfilePic id)
  ({ w with calls := w.calls + 1 }, fetchProfilePic env w.calls id)

/-- The call `bot.Send(msg)` for a text message. -/
def bot.Send (w : World) (chatID : Int) (text : String) (parseMode : String) : World :=
  w.emit (.Send chatID text parseMode)

/-- The call `s.SendMessage(name, sse.SimpleMessage(string(buf)))`. -/
def sse.SendMessage (w : World) (name : String) (buf : Envelope) : World :=
  w.emit (.SendMessage name buf)

/-- The JSON object for a `Message`, by its struct tags: `picture` carries
`omitempty` and is left out when `PicPath` is the empty string. -/
def json.encode (msg : Message) : Envelope :=
  { type := msg.Typ, user_location := msg.UserLocation,
    picture := if msg.PicPath = "" then none else some msg.PicPath }

/-- The call `json.Marshal(msg)`.  It can only fail on a non-finite number,
which `Float64` does not contain. -/
def json.Marshal (msg : Message) : Except String Envelope :=
  .ok (json.encode msg)

/-- Lines 193-200 of `updateLoop`: the secret the `stream` command registers
for the command arguments `arguments`. -/
def streamSecret (env : Env) (w : World) (arguments : String) : World × String :=
  let secret := TrimSpace arguments
  let secret := ReplaceAll secret '.' ""
  let secret := ReplaceAll secret '/' ""
  if secret ≠ "" then (w, (Split secret ' ').headD "")
  else uuid.NewString env w

/-- Lines 184-212 of `updateLoop`, the block `// command`.  The result `none`
is the `continue` of the `default` case. -/
def commandBlock (cfg : Configuration) (env : Env) (w : World)
    (update : tgbotapi.Update) : Option World :=
  match update.Message with
  | none => some w
  | some m =>
    if m.IsCommand then
      if m.Command = "help" then
        some (bot.Send w m.Chat.ID "I understand /stream [secret] and /stop" "")
      else if m.Command = "stream" then
        let r := streamSecret env w m.CommandArguments
        let w := addGroup r.1 m.Chat.ID r.2
        some (bot.Send w m.Chat.ID
          ("Start sharing to `" ++ cfg.ServerPath ++ "/sub/" ++ r.2 ++ "`") "markdown")
      else if m.Command = "stop" then
        let w := deleteGroup w m.Chat.ID
        some (bot.Send w m.Chat.ID "Stop sharing locations" "")
      else none
    else some w

/-- Lines 214-223 of `updateLoop`, the block `// quit/block`. -/
def quitBlock (w : World) (update : tgbotapi.Update) : World :=
  match update.MyChatMember with
  | none => w
  | some cm =>
    let newStatus := cm.NewChatMember.Status
    if newStatus = "left" ∨ newStatus = "kicked" then
      let w := deleteGroup w cm.Chat.ID
      if cm.Chat.IsPrivate then deleteUser w cm.Chat.ID else w
    else w

/-- Lines 226-229 of `updateLoop`: the message, or else the edited message. -/
def messageOf (update : tgbotapi.Update) : Option tgbotapi.Message :=
  match update.Message with
  | some m => some m
  | none => update.EditedMessage

/-- Lines 245-256 of `updateLoop`: look the sender up, fetch and store the
picture when there is no record, and set `PicPath` when a record is at hand. -/
def attachPicture (cfg : Configuration) (env : Env) (w : World) (userID : Int)
    (msg : Message) : World × Message :=
  if cfg.FetchUserPic then
    let r := getUserInfoByID w userID
    let r : World × Option UserInfo :=
      match r.2 with
      | some ui => (r.1, some ui)
      | none =>
        let f := getProfilePic env r.1 userID
        match f.2 with
        | .ok result =>
          let a := addUserPic env f.1 userID result
          (a.1, some a.2)
        | .error _ => (f.1, none)
    match r.2 with
    | some ui => (r.1, { msg with PicPath := cfg.ServerPath ++ "/pic/" ++ ui.UUID })
    | none => (r.1, msg)
  else (w, msg)

/-- Lines 235-244 of `updateLoop`: the event built from a message and its
location, before any picture is attached. -/
def locationEvent (message : tgbotapi.Message) (location : tgbotapi.Location) : Message :=
  let user := message.From
  { Typ := "user_location",
    UserLocation :=
      { Id := user.ID, Name := user.UserName, Latitude := location.Latitude,
        Longitude := location.Longitude, Date := message.Date },
    PicPath := "" }

/-- Lines 225-261 of `updateLoop`, the block `// location edit`. -/
def locationBlock (cfg : Configuration) (env : Env) (w : World)
    (update : tgbotapi.Update) : World :=
  match messageOf update with
  | none => w
  | some message =>
    match message.Location with
    | none => w
    | some location =>
      let chatId := message.Chat.ID
      let s := getSecret w chatId
      match s.2 with
      | none => s.1
      | some channel =>
        let user := message.From
        let msg := locationEvent message location
        let p := attachPicture cfg env s.1 user.ID msg
        match json.Marshal p.2 with
        | .ok buf => sse.SendMessage p.1 ("/sub/" ++ channel) buf
        | .error _ => p.1

/-- One iteration of the loop of `updateLoop` (lines 183-262). -/
def updateLoopBody (cfg : Configuration) (env : Env) (w : World)
    (update : tgbotapi.Update) : World :=
  match commandBlock cfg env w update with
  | none => w
  | some w1 => locationBlock cfg env (quitBlock w1 update) update

/-- The function `updateLoop`, on the updates received so far. -/
def updateLoop (cfg : Configuration) (env : Env) (w : World)
    (updates : List tgbotapi.Update) : World :=
  updates.foldl (updateLoopBody cfg env) w

/-! ## Reading the trace -/

/-- An entry of the trace is a dispatch to the broadcast sink. -/
def Effect.isDispatch : Effect → Bool
  | .SendMessage _ _ => true
  | _ => false

/-- An entry of the trace is a picture fetch through the transport. -/
def Effect.isFetch : Effect → Bool
  | .getProfilePic _ => true
  | _ => false

/-- An entry of the trace is a call of `addUserPic`. -/
def Effect.isAddUserPic : Effect → Bool
  | .addUserPic _ _ => true
  | _ => false

/-- An entry of the trace is a reply through `bot.Send`. -/
def Effect.isReply : Effect → Bool
  | .Send _ _ _ => true
  | _ => false

/-- The entries the block `// location edit` can add. -/
def Effect.fromLocation : Effect → Bool
  | .getSecret _ => true
  | .getUserInfoByID _ => true
  | .getProfilePic _ => true
  | .addUserPic _ _ => true
  | .SendMessage _ _ => true
  | _ => false

/-- The entries the block `// quit/block` can add. -/
def Effect.fromQuit : Effect → Bool
  | .deleteGroup _ => true
  | .deleteUser _ => true
  | _ => false

/-- The condition of line 185: the update is a command. -/
def isCommandUpdate (update : tgbotapi.Update) : Bool :=
  match update.Message with
  | some m => m.IsCommand
  | none => false

/-- The condition of lines 215-217: the update carries a membership change
whose new status is `left` or `kicked`. -/
def isRemovalUpdate (update : tgbotapi.Update) : Bool :=
  match update.MyChatMember with
  | some cm => cm.NewChatMember.Status = "left" ∨ cm.NewChatMember.Status = "kicked"
  | none => false

/-- The condition of line 230: the message, or else the edited message, carries
a location. -/
def carriesLocation (update : tgbotapi.Update) : Bool :=
  match messageOf update with
  | some m => m.Location.isSome
  | none => false

/-- The `stream` case of line 192: the update is a command with the word
`stream`. -/
def isStreamCommand (update : tgbotapi.Update) : Bool :=
  match update.Message with
  | some m => m.IsCommand && m.Command = "stream"
  | none => false

/-- The `default` case of line 207: the update is a command whose word is none
of `help`, `stream`, `stop`. -/
def isUnknownCommand (update : tgbotapi.Update) : Bool :=
  match update.Message with
  | some m => m.IsCommand && !(m.Command = "help" || m.Command = "stream" || m.Command = "stop")
  | none => false

/-- The update is a stream or stop event for chat `c` (a `stream` or `stop`
command sent in `c`) or a removal event for `c`. -/
def touchesSubscription (c : Int) (update : tgbotapi.Update) : Bool :=
  (match update.Message with
    | some m => m.IsCommand && (m.Command = "stream" || m.Command = "stop") && m.Chat.ID = c
    | none => false) ||
  (match update.MyChatMember with
    | some cm =>
      (cm.NewChatMember.Status = "left" || cm.NewChatMember.Status = "kicked") && cm.Chat.ID = c
    | none => false)

/-! ## Sample data -/

/-- A generator whose `k`-th token is `k + 1` letters `a`, and a transport on
which every fetch fails. -/
def sampleEnv : Env :=
  { NewString := fun k => ⟨List.replicate (k + 1) 'a'⟩
    GetUserProfilePhotos := fun _ _ => .error "unavailable"
    GetFileDirectURL := fun _ _ => .error "unavailable"
    Get := fun _ _ => .error "unavailable" }

/-- A configuration with picture fetching enabled. -/
def sampleConfig : Configuration :=
  { BotToken := "t", BotDebug := false, ServerPath := "https://example.org",
    BindAddress := ":8080", GroupLimit := 0, FetchUserPic := true, ServeMap := false }

/-- The world at start: empty tables, no call made. -/
def emptyWorld : World := { db := { users := [], groups := [] }, calls := 0, trace := [] }

/-- A text message from user 7 in group chat 5. -/
def sampleMessage : tgbotapi.Message :=
  { Chat := ⟨5, "group"⟩, From := ⟨7, "bob"⟩, Date := 3, Location := none,
    IsCommand := false, Command := "", CommandArguments := "" }

/-- A location shared by user 7 in group chat 5. -/
def locationUpdate : tgbotapi.Update :=
  { Message := some { sampleMessage with Location := some ⟨⟨48, 0⟩, ⟨2, 0⟩⟩ },
    EditedMessage := none, MyChatMember := none }

/-- The bot is removed from chat `c` of kind `kind`. -/
def removalUpdate (c : Int) (kind : String) : tgbotapi.Update :=
  { Message := none, EditedMessage := none,
    MyChatMember := some { Chat := ⟨c, kind⟩, NewChatMember := ⟨"kicked"⟩ } }

/-- A world in which chat 5 streams to `s`, chat 7 to `t`, and users 7 and 8
have a profile. -/
def sampleWorld : World :=
  { db := { users := [⟨7, "h7", [1, 2]⟩, ⟨8, "h8", [3]⟩], groups := [(5, "s"), (7, "t")] },
    calls := 0, trace := [] }

/-- A world in which chat 5 streams to `s` and nobody has a profile. -/
def subscribedWorld : World :=
  { db := { users := [], groups := [(5, "s")] }, calls := 0, trace := [] }

/-- The command `/start`, together with a location and with the removal of
the bot from chat 5, in one update. -/
def startUpdate : tgbotapi.Update :=
  { Message := some { sampleMessage with
      IsCommand := true, Command := "start", Location := some ⟨⟨48, 0⟩, ⟨2, 0⟩⟩ },
    EditedMessage := none,
    MyChatMember := some { Chat := ⟨5, "group"⟩, NewChatMember := ⟨"left"⟩ } }

/-- The command `/help`, together with a location and with the removal of the
bot from chat 5, in one update. -/
def helpUpdate : tgbotapi.Update :=
  { Message := some { sampleMessage with
      IsCommand := true, Command := "help", Location := some ⟨⟨48, 0⟩, ⟨2, 0⟩⟩ },
    EditedMessage := none,
    MyChatMember := some { Chat := ⟨5, "group"⟩, NewChatMember := ⟨"left"⟩ } }

/-- The command `/stream` with the given arguments, in group chat 5. -/
def streamUpdate (arguments : String) : tgbotapi.Update :=
  { Message := some { sampleMessage with
      IsCommand := true, Command := "stream", CommandArguments := arguments },
    EditedMessage := none, MyChatMember := none }


/-! ## Strings: lemmas -/

theorem mem_ReplaceAll_empty {s : String} {old c : Char}
    (h : c ∈ (ReplaceAll s old "").data) : c ≠ old ∧ c ∈ s.data := by
  simp only [ReplaceAll, List.mem_flatMap] at h
  obtain ⟨a, ha, hc⟩ := h
  by_cases hao : a = old
  · simp [hao] at hc
  · simp [hao] at hc
    subst hc
    exact ⟨hao, ha⟩

theorem mem_head_splitChars (sep : Char) :
    ∀ (l : List Char) (x : Char), x ∈ (splitChars sep l).headD [] → x ∈ l
  | [], x, h => by simp [splitChars] at h
  | c :: cs, x, h => by
    unfold splitChars at h
    by_cases hc : c = sep
    · simp [hc] at h
    · have ih := mem_head_splitChars sep cs x
      simp only [hc, if_false] at h
      cases hs : splitChars sep cs with
      | nil => simp [hs] at h; simp [h]
      | cons a t =>
        simp [hs] at h ih
        rcases h with h | h
        · simp [h]
        · simp [ih h]

theorem Split_headD (s : String) (sep : Char) :
    (Split s sep).headD "" = ⟨(splitChars sep s.data).headD []⟩ := by
  unfold Split
  cases splitChars sep s.data <;> rfl

/-- Whatever the arguments, the secret of the `stream` command has no `.` and no
`/`, provided the token the generator would return has none. -/
theorem streamSecret_clean (env : Env) (w : World) (arguments : String)
    (hgen : '.' ∉ (env.NewString w.calls).data ∧ '/' ∉ (env.NewString w.calls).data) :
    '.' ∉ (streamSecret env w arguments).2.data ∧
      '/' ∉ (streamSecret env w arguments).2.data := by
  unfold streamSecret
  by_cases he : ReplaceAll (ReplaceAll (TrimSpace arguments) '.' "") '/' "" = ""
  · simp only [he, ne_eq, not_true_eq_false, if_false]
    exact hgen
  · simp only [he, ne_eq, not_false_eq_true, if_true, Split_headD]
    constructor
    · intro h
      have h1 := mem_head_splitChars _ _ _ h
      exact (mem_ReplaceAll_empty (mem_ReplaceAll_empty h1).2).1 rfl
    · intro h
      have h1 := mem_head_splitChars _ _ _ h
      exact (mem_ReplaceAll_empty h1).1 rfl

theorem streamSecret_db (env : Env) (w : World) (arguments : String) :
    (streamSecret env w arguments).1.db = w.db ∧
      (streamSecret env w arguments).1.trace = w.trace := by
  unfold streamSecret
  by_cases he : ReplaceAll (ReplaceAll (TrimSpace arguments) '.' "") '/' "" = ""
  · simp [he, uuid.NewString]
  · simp [he]

theorem head_splitChars_eq_nil (sep : Char) (l : List Char) :
    (splitChars sep l).headD [] = [] ↔ l = [] ∨ l.head? = some sep := by
  cases l with
  | nil => simp [splitChars]
  | cons c cs =>
    by_cases hc : c = sep
    · simp [splitChars, hc]
    · cases hs : splitChars sep cs with
      | nil => simp [splitChars, hc, hs]
      | cons a t => simp [splitChars, hc, hs]

/-- The secret of the `stream` command is empty exactly when the stripped
argument starts with a space, or is empty while the generator returns the empty
string. -/
theorem streamSecret_eq_empty_iff (env : Env) (w : World) (arguments : String) :
    (streamSecret env w arguments).2 = "" ↔
      (ReplaceAll (ReplaceAll (TrimSpace arguments) '.' "") '/' "").data.head? = some ' ' ∨
      (ReplaceAll (ReplaceAll (TrimSpace arguments) '.' "") '/' "" = "" ∧
        env.NewString w.calls = "") := by
  unfold streamSecret
  by_cases he : ReplaceAll (ReplaceAll (TrimSpace arguments) '.' "") '/' "" = ""
  · simp [he, uuid.NewString]
  · have hd : (ReplaceAll (ReplaceAll (TrimSpace arguments) '.' "") '/' "").data ≠ [] := by
      intro h
      apply he
      exact String.ext h
    simp only [ne_eq, he, not_false_eq_true, if_true, Split_headD, false_and, or_false]
    have key := head_splitChars_eq_nil ' '
      (ReplaceAll (ReplaceAll (TrimSpace arguments) '.' "") '/' "").data
    simp only [hd, false_or] at key
    rw [← key]
    constructor
    · intro h
      exact congrArg String.data h
    · intro h
      exact String.ext h

/-! ## The loop: unfolding lemmas -/

theorem attachPicture_off {cfg : Configuration} (env : Env) (w : World) (id : Int)
    (msg : Message) (h : cfg.FetchUserPic = false) :
    attachPicture cfg env w id msg = (w, msg) := by
  simp [attachPicture, h]

theorem attachPicture_cached {cfg : Configuration} (env : Env) {w : World} {id : Int}
    (msg : Message) {ui : UserInfo} (h : cfg.FetchUserPic = true)
    (hu : w.db.selectUserByID id = some ui) :
    attachPicture cfg env w id msg =
      (w.emit (.getUserInfoByID id),
        { msg with PicPath := cfg.ServerPath ++ "/pic/" ++ ui.UUID }) := by
  simp [attachPicture, h, getUserInfoByID, hu]

theorem attachPicture_failed {cfg : Configuration} {env : Env} {w : World} {id : Int}
    (msg : Message) {e : String} (h : cfg.FetchUserPic = true)
    (hu : w.db.selectUserByID id = none)
    (hf : fetchProfilePic env w.calls id = .error e) :
    attachPicture cfg env w id msg =
      ({ db := w.db, calls := w.calls + 1,
         trace := w.trace ++ [.getUserInfoByID id, .getProfilePic id] }, msg) := by
  simp [attachPicture, h, getUserInfoByID, hu, getProfilePic, World.emit, hf]

theorem attachPicture_fetched {cfg : Configuration} {env : Env} {w : World} {id : Int}
    (msg : Message) {pic : Bytes} (h : cfg.FetchUserPic = true)
    (hu : w.db.selectUserByID id = none)
    (hf : fetchProfilePic env w.calls id = .ok pic) :
    attachPicture cfg env w id msg =
      ({ db := w.db.replaceUser ⟨id, env.NewString (w.calls + 1), pic⟩,
         calls := w.calls + 1 + 1,
         trace := w.trace ++ [.getUserInfoByID id, .getProfilePic id, .addUserPic id pic] },
        { msg with PicPath := cfg.ServerPath ++ "/pic/" ++ env.NewString (w.calls + 1) }) := by
  simp [attachPicture, h, getUserInfoByID, hu, getProfilePic, World.emit, hf, addUserPic,
    uuid.NewString]

theorem locationBlock_noMessage (cfg : Configuration) (env : Env) (w : World)
    {u : tgbotapi.Update} (h : messageOf u = none) : locationBlock cfg env w u = w := by
  simp [locationBlock, h]

theorem locationBlock_noLocation (cfg : Configuration) (env : Env) (w : World)
    {u : tgbotapi.Update} {m : tgbotapi.Message} (h : messageOf u = some m)
    (hl : m.Location = none) : locationBlock cfg env w u = w := by
  simp [locationBlock, h, hl]

theorem locationBlock_unsubscribed (cfg : Configuration) (env : Env) {w : World}
    {u : tgbotapi.Update} {m : tgbotapi.Message} {l : tgbotapi.Location}
    (h : messageOf u = some m) (hl : m.Location = some l)
    (hs : w.db.selectSecret m.Chat.ID = none) :
    locationBlock cfg env w u = w.emit (.getSecret m.Chat.ID) := by
  simp [locationBlock, h, hl, getSecret, hs]

theorem locationBlock_subscribed (cfg : Configuration) (env : Env) {w : World}
    {u : tgbotapi.Update} {m : tgbotapi.Message} {l : tgbotapi.Location} {channel : String}
    (h : messageOf u = some m) (hl : m.Location = some l)
    (hs : w.db.selectSecret m.Chat.ID = some channel) :
    locationBlock cfg env w u =
      (attachPicture cfg env (w.emit (.getSecret m.Chat.ID)) m.From.ID
          (locationEvent m l)).1.emit
        (.SendMessage ("/sub/" ++ channel)
          (json.encode (attachPicture cfg env (w.emit (.getSecret m.Chat.ID)) m.From.ID
            (locationEvent m l)).2)) := by
  simp [locationBlock, h, hl, getSecret, hs, json.Marshal, sse.SendMessage]


/-! ## Tables: lemmas -/

theorem find_filter_key {α : Type} (k : α → Int) (c d : Int) (l : List α) :
    (l.filter (fun r => k r != c)).find? (fun r => k r == d) =
      if d = c then none else l.find? (fun r => k r == d) := by
  induction l with
  | nil => simp
  | cons a t ih =>
    by_cases hac : k a = c
    · by_cases hdc : d = c
      · simp [List.filter_cons, hac, hdc, ih]
      · have hcd : ¬ c = d := fun h => hdc h.symm
        simp [List.filter_cons, List.find?_cons, hac, hdc, hcd, ih]
    · by_cases hdc : d = c
      · simp [List.filter_cons, List.find?_cons, hac, hdc, ih]
      · simp [List.filter_cons, List.find?_cons, hac, hdc, ih]

theorem selectSecret_deleteGroupRow (db : DB) (c d : Int) :
    (db.deleteGroupRow c).selectSecret d = if d = c then none else db.selectSecret d := by
  unfold DB.selectSecret DB.deleteGroupRow
  rw [find_filter_key (fun g : Int × String => g.1)]
  split <;> rfl

theorem selectSecret_replaceGroup (db : DB) (c d : Int) (s : String) :
    (db.replaceGroup c s).selectSecret d = if d = c then some s else db.selectSecret d := by
  unfold DB.selectSecret DB.replaceGroup
  by_cases hdc : d = c
  · simp [List.find?_cons, hdc]
  · have hcd : ¬ c = d := fun h => hdc h.symm
    have hb : (c == d) = false := by simp [hcd]
    simp only [List.find?_cons, hdc, if_false, hb]
    rw [find_filter_key (fun g : Int × String => g.1)]
    simp [hdc]

theorem selectUserByID_deleteUserRow (db : DB) (c d : Int) :
    (db.deleteUserRow c).selectUserByID d = if d = c then none else db.selectUserByID d := by
  unfold DB.selectUserByID DB.deleteUserRow
  exact find_filter_key (fun r : UserInfo => r.Id) c d db.users

theorem selectUserByID_replaceUser (db : DB) (ui : UserInfo) (d : Int) :
    (db.replaceUser ui).selectUserByID d =
      if d = ui.Id then some ui else db.selectUserByID d := by
  unfold DB.selectUserByID DB.replaceUser
  by_cases hdc : d = ui.Id
  · simp [List.find?_cons, hdc]
  · have hcd : ¬ ui.Id = d := fun h => hdc h.symm
    have hb : (ui.Id == d) = false := by simp [hcd]
    simp only [List.find?_cons, hdc, if_false, hb]
    rw [find_filter_key (fun r : UserInfo => r.Id)]
    simp [hdc]

theorem performed_append {w w1 : World} {es : List Effect}
    (h : w1.trace = w.trace ++ es) : performed w w1 = es := by
  simp [performed, h]

theorem performed_self (w : World) : performed w w = [] := by
  simp [performed]


/-! ## The block `// command` -/

theorem commandBlock_of_notCommand (cfg : Configuration) (env : Env) (w : World)
    {u : tgbotapi.Update} (h : isCommandUpdate u = false) :
    commandBlock cfg env w u = some w := by
  unfold isCommandUpdate at h
  unfold commandBlock
  cases hm : u.Message with
  | none => rfl
  | some m =>
    rw [hm] at h
    simp at h
    simp [h]

theorem commandBlock_stream (cfg : Configuration) (env : Env) (w : World)
    {u : tgbotapi.Update} {m : tgbotapi.Message} (hm : u.Message = some m)
    (hc : m.IsCommand = true) (hs : m.Command = "stream") :
    commandBlock cfg env w u =
      some (bot.Send
        (addGroup (streamSecret env w m.CommandArguments).1 m.Chat.ID
          (streamSecret env w m.CommandArguments).2)
        m.Chat.ID
        ("Start sharing to `" ++ cfg.ServerPath ++ "/sub/"
          ++ (streamSecret env w m.CommandArguments).2 ++ "`")
        "markdown") := by
  simp [commandBlock, hm, hc, hs]

theorem commandBlock_unknown (cfg : Configuration) (env : Env) (w : World)
    {u : tgbotapi.Update} (h : isUnknownCommand u = true) :
    commandBlock cfg env w u = none := by
  unfold isUnknownCommand at h
  unfold commandBlock
  cases hm : u.Message with
  | none => rw [hm] at h; simp at h
  | some m =>
    rw [hm] at h
    simp at h
    simp [h]

theorem commandBlock_known (cfg : Configuration) (env : Env) (w : World)
    {u : tgbotapi.Update} (h : isUnknownCommand u = false) :
    ∃ w1, commandBlock cfg env w u = some w1 := by
  unfold isUnknownCommand at h
  unfold commandBlock
  cases hm : u.Message with
  | none => exact ⟨w, rfl⟩
  | some m =>
    rw [hm] at h
    by_cases hc : m.IsCommand = true
    · simp [hc] at h
      by_cases h1 : m.Command = "help"
      · simp [hc, h1]
      · by_cases h2 : m.Command = "stream"
        · simp [hc, h2]
        · have h3 := h h1 h2
          simp [hc, h3]
    · simp [hc]

/-- What the block `// command` may add to the trace. -/
theorem commandBlock_trace (cfg : Configuration) (env : Env) (w : World)
    {u : tgbotapi.Update} {w1 : World} (h : commandBlock cfg env w u = some w1) :
    ∃ es, w1.trace = w.trace ++ es ∧
      ∀ e ∈ es, e.isReply = true ∨ (∃ c, e = .deleteGroup c) ∨
        ∃ c a, e = .addGroup c (streamSecret env w a).2 := by
  unfold commandBlock at h
  cases hm : u.Message with
  | none =>
    rw [hm] at h
    simp at h
    exact ⟨[], by simp [h], by simp⟩
  | some m =>
    rw [hm] at h
    by_cases hc : m.IsCommand = true
    · by_cases h1 : m.Command = "help"
      · simp [hc, h1] at h
        subst h
        exact ⟨[.Send m.Chat.ID "I understand /stream [secret] and /stop" ""],
          by simp [bot.Send, World.emit], by simp [Effect.isReply]⟩
      · by_cases h2 : m.Command = "stream"
        · simp [hc, h2] at h
          subst h
          refine ⟨[.addGroup m.Chat.ID (streamSecret env w m.CommandArguments).2,
            .Send m.Chat.ID ("Start sharing to `" ++ cfg.ServerPath ++ "/sub/"
              ++ (streamSecret env w m.CommandArguments).2 ++ "`") "markdown"], ?_, ?_⟩
          · simp [bot.Send, addGroup, World.emit, (streamSecret_db env w m.CommandArguments).2]
          · intro e he
            simp at he
            rcases he with he | he
            · exact Or.inr (Or.inr ⟨_, _, he⟩)
            · subst he
              exact Or.inl rfl
        · by_cases h3 : m.Command = "stop"
          · simp [hc, h3] at h
            subst h
            refine ⟨[.deleteGroup m.Chat.ID, .Send m.Chat.ID "Stop sharing locations" ""],
              ?_, ?_⟩
            · simp [bot.Send, deleteGroup, World.emit]
            · intro e he
              simp at he
              rcases he with he | he
              · exact Or.inr (Or.inl ⟨_, he⟩)
              · subst he
                exact Or.inl rfl
          · simp [hc, h1, h2, h3] at h
    · simp [hc] at h
      exact ⟨[], by simp [h], by simp⟩

theorem commandBlock_users (cfg : Configuration) (env : Env) (w : World)
    {u : tgbotapi.Update} {w1 : World} (h : commandBlock cfg env w u = some w1) :
    w1.db.users = w.db.users := by
  unfold commandBlock at h
  cases hm : u.Message with
  | none =>
    rw [hm] at h
    simp at h
    rw [h]
  | some m =>
    rw [hm] at h
    by_cases hc : m.IsCommand = true
    · by_cases h1 : m.Command = "help"
      · simp [hc, h1] at h
        subst h
        rfl
      · by_cases h2 : m.Command = "stream"
        · simp [hc, h2] at h
          subst h
          simp [bot.Send, addGroup, World.emit, DB.replaceGroup,
            (streamSecret_db env w m.CommandArguments).1]
        · by_cases h3 : m.Command = "stop"
          · simp [hc, h3] at h
            subst h
            rfl
          · simp [hc, h1, h2, h3] at h
    · simp [hc] at h
      rw [h]

theorem commandBlock_secret (cfg : Configuration) (env : Env) (w : World)
    {u : tgbotapi.Update} {w1 : World} (c : Int)
    (h : commandBlock cfg env w u = some w1) (ht : touchesSubscription c u = false) :
    w1.db.selectSecret c = w.db.selectSecret c := by
  unfold touchesSubscription at ht
  simp only [Bool.or_eq_false_iff] at ht
  have ht := ht.1
  unfold commandBlock at h
  cases hm : u.Message with
  | none =>
    rw [hm] at h
    simp at h
    rw [h]
  | some m =>
    rw [hm] at h ht
    by_cases hc : m.IsCommand = true
    · by_cases h1 : m.Command = "help"
      · simp [hc, h1] at h
        subst h
        rfl
      · by_cases h2 : m.Command = "stream"
        · simp [hc, h2] at h ht
          subst h
          simp [bot.Send, addGroup, World.emit, selectSecret_replaceGroup,
            (streamSecret_db env w m.CommandArguments).1]
          intro hcc
          exact absurd hcc.symm ht
        · by_cases h3 : m.Command = "stop"
          · simp [hc, h3] at h ht
            subst h
            simp [bot.Send, deleteGroup, World.emit, selectSecret_deleteGroupRow]
            intro hcc
            exact absurd hcc.symm ht
          · simp [hc, h1, h2, h3] at h
    · simp [hc] at h
      rw [h]


/-! ## The block `// quit/block` -/

theorem quitBlock_of_notRemoval (w : World) {u : tgbotapi.Update}
    (h : isRemovalUpdate u = false) : quitBlock w u = w := by
  unfold isRemovalUpdate at h
  unfold quitBlock
  cases hm : u.MyChatMember with
  | none => rfl
  | some cm =>
    rw [hm] at h
    simp at h
    simp [h]

theorem quitBlock_removal (w : World) {u : tgbotapi.Update}
    {cm : tgbotapi.ChatMemberUpdated} (hm : u.MyChatMember = some cm)
    (hs : cm.NewChatMember.Status = "left" ∨ cm.NewChatMember.Status = "kicked") :
    quitBlock w u =
      if cm.Chat.IsPrivate = true then
        { db := (w.db.deleteGroupRow cm.Chat.ID).deleteUserRow cm.Chat.ID, calls := w.calls,
          trace := w.trace ++ [.deleteGroup cm.Chat.ID, .deleteUser cm.Chat.ID] }
      else
        { db := w.db.deleteGroupRow cm.Chat.ID, calls := w.calls,
          trace := w.trace ++ [.deleteGroup cm.Chat.ID] } := by
  unfold quitBlock
  simp only [hm, hs, if_true]
  by_cases hp : cm.Chat.IsPrivate = true
  · simp [hp, deleteGroup, deleteUser, World.emit]
  · simp [hp, deleteGroup, World.emit]

theorem quitBlock_trace (w : World) (u : tgbotapi.Update) :
    ∃ es, (quitBlock w u).trace = w.trace ++ es ∧ ∀ e ∈ es, e.fromQuit = true := by
  by_cases hr : isRemovalUpdate u = true
  · unfold isRemovalUpdate at hr
    cases hm : u.MyChatMember with
    | none => rw [hm] at hr; simp at hr
    | some cm =>
      rw [hm] at hr
      simp only [decide_eq_true_eq] at hr
      rw [quitBlock_removal w hm hr]
      by_cases hp : cm.Chat.IsPrivate = true
      · exact ⟨[.deleteGroup cm.Chat.ID, .deleteUser cm.Chat.ID], by simp [hp],
          by simp [Effect.fromQuit]⟩
      · exact ⟨[.deleteGroup cm.Chat.ID], by simp [hp], by simp [Effect.fromQuit]⟩
  · have hr : isRemovalUpdate u = false := by simpa using hr
    rw [quitBlock_of_notRemoval w hr]
    exact ⟨[], by simp, by simp⟩

theorem quitBlock_secret (w : World) {u : tgbotapi.Update} (c : Int)
    (ht : touchesSubscription c u = false) :
    (quitBlock w u).db.selectSecret c = w.db.selectSecret c := by
  unfold touchesSubscription at ht
  simp only [Bool.or_eq_false_iff] at ht
  have ht := ht.2
  by_cases hr : isRemovalUpdate u = true
  · unfold isRemovalUpdate at hr
    cases hm : u.MyChatMember with
    | none => rw [hm] at hr; simp at hr
    | some cm =>
      rw [hm] at hr ht
      simp only [decide_eq_true_eq] at hr
      have hne : ¬ c = cm.Chat.ID := by
        intro hcc
        rcases hr with hr | hr <;> simp [hr, hcc] at ht
      rw [quitBlock_removal w hm hr]
      by_cases hp : cm.Chat.IsPrivate = true
      · simp only [hp, if_true]
        have : ((w.db.deleteGroupRow cm.Chat.ID).deleteUserRow cm.Chat.ID).selectSecret c =
            (w.db.deleteGroupRow cm.Chat.ID).selectSecret c := rfl
        rw [this, selectSecret_deleteGroupRow]
        simp [hne]
      · simp only [hp]
        simp [selectSecret_deleteGroupRow, hne]
  · have hr : isRemovalUpdate u = false := by simpa using hr
    rw [quitBlock_of_notRemoval w hr]

/-- The block `// quit/block` only deletes: a profile found afterwards was
there before, unchanged. -/
theorem quitBlock_user (w : World) (u : tgbotapi.Update) {x : Int} {ui : UserInfo}
    (h : (quitBlock w u).db.selectUserByID x = some ui) :
    w.db.selectUserByID x = some ui := by
  by_cases hr : isRemovalUpdate u = true
  · unfold isRemovalUpdate at hr
    cases hm : u.MyChatMember with
    | none => rw [hm] at hr; simp at hr
    | some cm =>
      rw [hm] at hr
      simp only [decide_eq_true_eq] at hr
      rw [quitBlock_removal w hm hr] at h
      by_cases hp : cm.Chat.IsPrivate = true
      · simp only [hp, if_true] at h
        rw [selectUserByID_deleteUserRow] at h
        by_cases hx : x = cm.Chat.ID
        · simp [hx] at h
        · simpa [hx, DB.selectUserByID, DB.deleteGroupRow] using h
      · simp only [hp] at h
        simpa [DB.selectUserByID, DB.deleteGroupRow] using h
  · have hr : isRemovalUpdate u = false := by simpa using hr
    rw [quitBlock_of_notRemoval w hr] at h
    exact h

/-! ## The block `// location edit` -/

theorem attachPicture_cases (cfg : Configuration) (env : Env) (w : World) (id : Int)
    (msg : Message) :
    attachPicture cfg env w id msg = (w, msg) ∨
    (∃ ui, w.db.selectUserByID id = some ui ∧
      attachPicture cfg env w id msg =
        (w.emit (.getUserInfoByID id),
          { msg with PicPath := cfg.ServerPath ++ "/pic/" ++ ui.UUID })) ∨
    (w.db.selectUserByID id = none ∧
      attachPicture cfg env w id msg =
        ({ db := w.db, calls := w.calls + 1,
           trace := w.trace ++ [.getUserInfoByID id, .getProfilePic id] }, msg)) ∨
    (∃ pic, w.db.selectUserByID id = none ∧
      attachPicture cfg env w id msg =
        ({ db := w.db.replaceUser ⟨id, env.NewString (w.calls + 1), pic⟩,
           calls := w.calls + 1 + 1,
           trace := w.trace ++ [.getUserInfoByID id, .getProfilePic id, .addUserPic id pic] },
          { msg with PicPath := cfg.ServerPath ++ "/pic/" ++ env.NewString (w.calls + 1) })) := by
  by_cases hf : cfg.FetchUserPic = true
  · cases hu : w.db.selectUserByID id with
    | some ui => exact Or.inr (Or.inl ⟨ui, rfl, attachPicture_cached env msg hf hu⟩)
    | none =>
      cases hp : fetchProfilePic env w.calls id with
      | error e => exact Or.inr (Or.inr (Or.inl ⟨rfl, attachPicture_failed msg hf hu hp⟩))
      | ok pic => exact Or.inr (Or.inr (Or.inr ⟨pic, rfl, attachPicture_fetched msg hf hu hp⟩))
  · have hf : cfg.FetchUserPic = false := by simpa using hf
    exact Or.inl (attachPicture_off env w id msg hf)

theorem attachPicture_trace (cfg : Configuration) (env : Env) (w : World) (id : Int)
    (msg : Message) :
    ∃ es, (attachPicture cfg env w id msg).1.trace = w.trace ++ es ∧
      ∀ e ∈ es, e.fromLocation = true := by
  rcases attachPicture_cases cfg env w id msg with h | ⟨ui, _, h⟩ | ⟨_, h⟩ | ⟨pic, _, h⟩
  · exact ⟨[], by simp [h], by simp⟩
  · exact ⟨[.getUserInfoByID id], by simp [h, World.emit], by simp [Effect.fromLocation]⟩
  · exact ⟨[.getUserInfoByID id, .getProfilePic id], by simp [h],
      by simp [Effect.fromLocation]⟩
  · exact ⟨[.getUserInfoByID id, .getProfilePic id, .addUserPic id pic], by simp [h],
      by simp [Effect.fromLocation]⟩

theorem attachPicture_groups (cfg : Configuration) (env : Env) (w : World) (id : Int)
    (msg : Message) :
    (attachPicture cfg env w id msg).1.db.groups = w.db.groups := by
  rcases attachPicture_cases cfg env w id msg with h | ⟨ui, _, h⟩ | ⟨_, h⟩ | ⟨pic, _, h⟩ <;>
    simp [h, World.emit, DB.replaceUser]

/-- Attaching a picture never changes an existing profile. -/
theorem attachPicture_user (cfg : Configuration) (env : Env) (w : World) (id : Int)
    (msg : Message) {x : Int} {ui : UserInfo} (hx : w.db.selectUserByID x = some ui) :
    (attachPicture cfg env w id msg).1.db.selectUserByID x = some ui := by
  rcases attachPicture_cases cfg env w id msg with h | ⟨ui, _, h⟩ | ⟨_, h⟩ | ⟨pic, hn, h⟩
  · simpa [h] using hx
  · simpa [h, World.emit] using hx
  · simpa [h] using hx
  · have hne : ¬ x = id := by
      intro hxi
      rw [hxi, hn] at hx
      exact absurd hx (by simp)
    simp only [h]
    rw [selectUserByID_replaceUser]
    simp [hne, hx]

theorem locationBlock_trace (cfg : Configuration) (env : Env) (w : World)
    (u : tgbotapi.Update) :
    ∃ es, (locationBlock cfg env w u).trace = w.trace ++ es ∧
      ∀ e ∈ es, e.fromLocation = true := by
  cases hm : messageOf u with
  | none => exact ⟨[], by simp [locationBlock_noMessage cfg env w hm], by simp⟩
  | some m =>
    cases hl : m.Location with
    | none => exact ⟨[], by simp [locationBlock_noLocation cfg env w hm hl], by simp⟩
    | some l =>
      cases hs : w.db.selectSecret m.Chat.ID with
      | none =>
        exact ⟨[.getSecret m.Chat.ID],
          by simp [locationBlock_unsubscribed cfg env hm hl hs, World.emit],
          by simp [Effect.fromLocation]⟩
      | some channel =>
        rw [locationBlock_subscribed cfg env hm hl hs]
        obtain ⟨es, hes, hall⟩ := attachPicture_trace cfg env (w.emit (.getSecret m.Chat.ID))
          m.From.ID (locationEvent m l)
        refine ⟨[.getSecret m.Chat.ID] ++ es ++ [.SendMessage ("/sub/" ++ channel) (json.encode
          (attachPicture cfg env (w.emit (.getSecret m.Chat.ID)) m.From.ID
            (locationEvent m l)).2)], ?_, ?_⟩
        · simp [World.emit] at hes ⊢
          rw [hes]
          simp
        · intro e he
          simp only [List.mem_append, List.mem_singleton] at he
          rcases he with (he | he) | he
          · simp [he, Effect.fromLocation]
          · exact hall e he
          · simp [he, Effect.fromLocation]

theorem locationBlock_groups (cfg : Configuration) (env : Env) (w : World)
    (u : tgbotapi.Update) : (locationBlock cfg env w u).db.groups = w.db.groups := by
  cases hm : messageOf u with
  | none => rw [locationBlock_noMessage cfg env w hm]
  | some m =>
    cases hl : m.Location with
    | none => rw [locationBlock_noLocation cfg env w hm hl]
    | some l =>
      cases hs : w.db.selectSecret m.Chat.ID with
      | none => rw [locationBlock_unsubscribed cfg env hm hl hs]; rfl
      | some channel =>
        rw [locationBlock_subscribed cfg env hm hl hs]
        simp only [World.emit]
        exact attachPicture_groups cfg env _ _ _

theorem locationBlock_user (cfg : Configuration) (env : Env) (w : World)
    (u : tgbotapi.Update) {x : Int} {ui : UserInfo} (hx : w.db.selectUserByID x = some ui) :
    (locationBlock cfg env w u).db.selectUserByID x = some ui := by
  cases hm : messageOf u with
  | none => rw [locationBlock_noMessage cfg env w hm]; exact hx
  | some m =>
    cases hl : m.Location with
    | none => rw [locationBlock_noLocation cfg env w hm hl]; exact hx
    | some l =>
      cases hs : w.db.selectSecret m.Chat.ID with
      | none => rw [locationBlock_unsubscribed cfg env hm hl hs]; exact hx
      | some channel =>
        rw [locationBlock_subscribed cfg env hm hl hs]
        simp only [World.emit]
        exact attachPicture_user cfg env _ _ _ hx

theorem locationBlock_secret (cfg : Configuration) (env : Env) (w : World)
    (u : tgbotapi.Update) (c : Int) :
    (locationBlock cfg env w u).db.selectSecret c = w.db.selectSecret c := by
  unfold DB.selectSecret
  rw [locationBlock_groups]

/-! ## One iteration -/

theorem updateLoopBody_of_some (cfg : Configuration) (env : Env) {w w1 : World}
    {u : tgbotapi.Update} (h : commandBlock cfg env w u = some w1) :
    updateLoopBody cfg env w u = locationBlock cfg env (quitBlock w1 u) u := by
  simp [updateLoopBody, h]

theorem updateLoopBody_of_unknown (cfg : Configuration) (env : Env) (w : World)
    {u : tgbotapi.Update} (h : isUnknownCommand u = true) :
    updateLoopBody cfg env w u = w := by
  simp [updateLoopBody, commandBlock_unknown cfg env w h]

theorem updateLoop_cons (cfg : Configuration) (env : Env) (w : World)
    (u : tgbotapi.Update) (us : List tgbotapi.Update) :
    updateLoop cfg env w (u :: us) = updateLoop cfg env (updateLoopBody cfg env w u) us := rfl

/-- An update that is no stream, stop or removal event for `c` leaves the
subscription of `c` as it is. -/
theorem updateLoopBody_secret (cfg : Configuration) (env : Env) (w : World)
    {u : tgbotapi.Update} (c : Int) (ht : touchesSubscription c u = false) :
    (updateLoopBody cfg env w u).db.selectSecret c = w.db.selectSecret c := by
  cases h : commandBlock cfg env w u with
  | none => simp [updateLoopBody, h]
  | some w1 =>
    rw [updateLoopBody_of_some cfg env h, locationBlock_secret, quitBlock_secret _ c ht,
      commandBlock_secret cfg env w c h ht]

theorem updateLoop_secret (cfg : Configuration) (env : Env) (c : Int) :
    ∀ (us : List tgbotapi.Update) (w : World),
      (∀ u ∈ us, touchesSubscription c u = false) →
      (updateLoop cfg env w us).db.selectSecret c = w.db.selectSecret c
  | [], _, _ => rfl
  | u :: us, w, h => by
    rw [updateLoop_cons, updateLoop_secret cfg env c us _ (fun v hv => h v (by simp [hv])),
      updateLoopBody_secret cfg env w c (h u (by simp))]


/-- The trace of one iteration that was not cut short: what the three blocks
added, in order. -/
theorem updateLoopBody_trace (cfg : Configuration) (env : Env) (w : World)
    {u : tgbotapi.Update} {w1 : World} (h : commandBlock cfg env w u = some w1) :
    ∃ es1 es2 es3, w1.trace = w.trace ++ es1 ∧
      (quitBlock w1 u).trace = w1.trace ++ es2 ∧
      performed w (updateLoopBody cfg env w u) = es1 ++ es2 ++ es3 ∧
      (∀ e ∈ es1, e.isReply = true ∨ (∃ c, e = .deleteGroup c) ∨
        ∃ c a, e = .addGroup c (streamSecret env w a).2) ∧
      (∀ e ∈ es2, e.fromQuit = true) ∧ (∀ e ∈ es3, e.fromLocation = true) := by
  obtain ⟨es1, h1, p1⟩ := commandBlock_trace cfg env w h
  obtain ⟨es2, h2, p2⟩ := quitBlock_trace w1 u
  obtain ⟨es3, h3, p3⟩ := locationBlock_trace cfg env (quitBlock w1 u) u
  refine ⟨es1, es2, es3, h1, h2, ?_, p1, p2, p3⟩
  apply performed_append
  rw [updateLoopBody_of_some cfg env h, h3, h2, h1]
  simp only [List.append_assoc]

/-! ## The `stream` argument -/

/-- C1, as stated, fails: for the command arguments `../../x y` the secret that
is passed to `addGroup` and shown in the reply is not `xy`. -/
theorem stream_dotdot_secret_ne_xy :
    (streamSecret sampleEnv emptyWorld "../../x y").2 ≠ "xy" ∧
    Effect.addGroup 5 "xy" ∉
      performed emptyWorld
        (updateLoopBody sampleConfig sampleEnv emptyWorld (streamUpdate "../../x y")) := by
  decide

/-- C1 (amended): in the `stream` branch, the command arguments `../../x y`
(trim, strip every `.` and `/`, then take the part before the first space) give
the secret `x`: `x` is passed to `addGroup` and shown in the reply. -/
theorem stream_dotdot_secret_eq_x (cfg : Configuration) (env : Env) (w : World)
    (m : tgbotapi.Message) :
    streamSecret env w "../../x y" = (w, "x") ∧
    updateLoopBody cfg env w
        ⟨some { m with IsCommand := true, Command := "stream",
                       CommandArguments := "../../x y", Location := none }, none, none⟩ =
      bot.Send (addGroup w m.Chat.ID "x") m.Chat.ID
        ("Start sharing to `" ++ cfg.ServerPath ++ "/sub/" ++ "x" ++ "`") "markdown" := by
  have hs : streamSecret env w "../../x y" = (w, "x") := by
    unfold streamSecret
    rfl
  refine ⟨hs, ?_⟩
  simp [updateLoopBody, commandBlock, quitBlock, locationBlock, messageOf, hs]

/-- C2: for the command arguments `. x` the `stream` branch registers the empty
secret, whatever the generator returns: trimming comes before stripping, so the
stripped argument ` x` is not empty and its part before the first space is. -/
theorem stream_dot_space_secret_empty (cfg : Configuration) (env : Env) (w : World)
    (m : tgbotapi.Message) :
    streamSecret env w ". x" = (w, "") ∧
    updateLoopBody cfg env w
        ⟨some { m with IsCommand := true, Command := "stream",
                       CommandArguments := ". x", Location := none }, none, none⟩ =
      bot.Send (addGroup w m.Chat.ID "") m.Chat.ID
        ("Start sharing to `" ++ cfg.ServerPath ++ "/sub/" ++ "" ++ "`") "markdown" := by
  have hs : streamSecret env w ". x" = (w, "") := by
    unfold streamSecret
    rfl
  refine ⟨hs, ?_⟩
  simp [updateLoopBody, commandBlock, quitBlock, locationBlock, messageOf, hs]

/-- C3: whatever the command arguments, the secret of the `stream` command has
neither `.` nor `/`, provided the generated tokens have none: this holds for
the secret computed from any arguments, for the secret a `stream` command
passes to `addGroup` and puts into the path of its reply, and for every secret
an iteration of the loop passes to `addGroup`. -/
theorem stream_secret_has_no_dot_or_slash (cfg : Configuration) (env : Env) (w : World)
    (u : tgbotapi.Update)
    (hgen : ∀ n, '.' ∉ (env.NewString n).data ∧ '/' ∉ (env.NewString n).data) :
    (∀ arguments, '.' ∉ (streamSecret env w arguments).2.data ∧
      '/' ∉ (streamSecret env w arguments).2.data) ∧
    (∀ m, u.Message = some m → m.IsCommand = true → m.Command = "stream" →
      ∃ secret, ('.' ∉ secret.data ∧ '/' ∉ secret.data) ∧
        Effect.addGroup m.Chat.ID secret ∈ performed w (updateLoopBody cfg env w u) ∧
        Effect.Send m.Chat.ID
            ("Start sharing to `" ++ cfg.ServerPath ++ "/sub/" ++ secret ++ "`") "markdown" ∈
          performed w (updateLoopBody cfg env w u)) ∧
    (∀ c secret, Effect.addGroup c secret ∈ performed w (updateLoopBody cfg env w u) →
      '.' ∉ secret.data ∧ '/' ∉ secret.data) := by
  have hclean : ∀ arguments, '.' ∉ (streamSecret env w arguments).2.data ∧
      '/' ∉ (streamSecret env w arguments).2.data :=
    fun a => streamSecret_clean env w a (hgen w.calls)
  refine ⟨hclean, ?_, ?_⟩
  · intro m hm hc hs
    have hcb := commandBlock_stream cfg env w hm hc hs
    obtain ⟨es1, es2, es3, h1, _, hp, _, _, _⟩ := updateLoopBody_trace cfg env w hcb
    refine ⟨(streamSecret env w m.CommandArguments).2, hclean _, ?_, ?_⟩
    · rw [hp]
      have : Effect.addGroup m.Chat.ID (streamSecret env w m.CommandArguments).2 ∈ es1 := by
        have h1' := h1
        simp only [bot.Send, addGroup, World.emit,
          (streamSecret_db env w m.CommandArguments).2, List.append_assoc,
          List.append_cancel_left_eq] at h1'
        rw [← h1']
        simp
      simp [this]
    · rw [hp]
      have : Effect.Send m.Chat.ID ("Start sharing to `" ++ cfg.ServerPath ++ "/sub/"
          ++ (streamSecret env w m.CommandArguments).2 ++ "`") "markdown" ∈ es1 := by
        have h1' := h1
        simp only [bot.Send, addGroup, World.emit,
          (streamSecret_db env w m.CommandArguments).2, List.append_assoc,
          List.append_cancel_left_eq] at h1'
        rw [← h1']
        simp
      simp [this]
  · intro c secret hmem
    cases hcb : commandBlock cfg env w u with
    | none =>
      simp [updateLoopBody, hcb, performed_self] at hmem
    | some w1 =>
      obtain ⟨es1, es2, es3, _, _, hp, p1, p2, p3⟩ := updateLoopBody_trace cfg env w hcb
      rw [hp] at hmem
      simp only [List.mem_append] at hmem
      rcases hmem with (hmem | hmem) | hmem
      · rcases p1 _ hmem with hr | ⟨c', hd⟩ | ⟨c', a, ha⟩
        · simp [Effect.isReply] at hr
        · simp at hd
        · simp only [Effect.addGroup.injEq] at ha
          rw [ha.2]
          exact hclean a
      · have := p2 _ hmem
        simp [Effect.fromQuit] at this
      · have := p3 _ hmem
        simp [Effect.fromLocation] at this

/-- C3, at an instance: the sample generator only writes the letter `a`, and
the arguments `../a.b/c d` are registered as `abc`. -/
theorem stream_secret_has_no_dot_or_slash_witness :
    (∀ n, '.' ∉ (sampleEnv.NewString n).data ∧ '/' ∉ (sampleEnv.NewString n).data) ∧
    ((∀ arguments, '.' ∉ (streamSecret sampleEnv emptyWorld arguments).2.data ∧
      '/' ∉ (streamSecret sampleEnv emptyWorld arguments).2.data) ∧
    (∀ m, (streamUpdate "../a.b/c d").Message = some m → m.IsCommand = true →
      m.Command = "stream" →
      ∃ secret, ('.' ∉ secret.data ∧ '/' ∉ secret.data) ∧
        Effect.addGroup m.Chat.ID secret ∈ performed emptyWorld
          (updateLoopBody sampleConfig sampleEnv emptyWorld (streamUpdate "../a.b/c d")) ∧
        Effect.Send m.Chat.ID
            ("Start sharing to `" ++ sampleConfig.ServerPath ++ "/sub/" ++ secret ++ "`")
            "markdown" ∈
          performed emptyWorld
            (updateLoopBody sampleConfig sampleEnv emptyWorld (streamUpdate "../a.b/c d"))) ∧
    (∀ c secret, Effect.addGroup c secret ∈ performed emptyWorld
        (updateLoopBody sampleConfig sampleEnv emptyWorld (streamUpdate "../a.b/c d")) →
      '.' ∉ secret.data ∧ '/' ∉ secret.data)) :=
  have hgen : ∀ n, '.' ∉ (sampleEnv.NewString n).data ∧ '/' ∉ (sampleEnv.NewString n).data := by
    intro n
    simp [sampleEnv, List.mem_replicate]
  ⟨hgen, stream_secret_has_no_dot_or_slash sampleConfig sampleEnv emptyWorld
    (streamUpdate "../a.b/c d") hgen⟩


/-! ## Location updates -/

theorem deleteGroupRow_of_absent (db : DB) (c : Int) (h : db.selectSecret c = none) :
    db.deleteGroupRow c = db := by
  unfold DB.selectSecret at h
  simp only [Option.map_eq_none', List.find?_eq_none] at h
  unfold DB.deleteGroupRow
  have : db.groups.filter (fun g => g.1 != c) = db.groups := by
    rw [List.filter_eq_self]
    intro g hg
    have := h g hg
    simpa using this
  rw [this]

theorem messageOf_of_message {u : tgbotapi.Update} {m : tgbotapi.Message}
    (h : u.Message = some m) : messageOf u = some m := by
  simp [messageOf, h]

theorem locationBlock_of_noLocation (cfg : Configuration) (env : Env) (w : World)
    {u : tgbotapi.Update} (h : carriesLocation u = false) : locationBlock cfg env w u = w := by
  unfold carriesLocation at h
  cases hm : messageOf u with
  | none => exact locationBlock_noMessage cfg env w hm
  | some m =>
    rw [hm] at h
    cases hl : m.Location with
    | none => exact locationBlock_noLocation cfg env w hm hl
    | some l => simp [hl] at h

/-- A command other than `stream`, sent in a chat without a subscription,
leaves the database as it is. -/
theorem commandBlock_db_of_notStream (cfg : Configuration) (env : Env) (w : World)
    {u : tgbotapi.Update} {w1 : World} (h : commandBlock cfg env w u = some w1)
    (hns : isStreamCommand u = false)
    (habs : ∀ m, u.Message = some m → w.db.selectSecret m.Chat.ID = none) :
    w1.db = w.db ∧ w1.calls = w.calls := by
  unfold isStreamCommand at hns
  unfold commandBlock at h
  cases hm : u.Message with
  | none =>
    rw [hm] at h
    simp at h
    rw [h]
    exact ⟨rfl, rfl⟩
  | some m =>
    rw [hm] at h hns
    by_cases hc : m.IsCommand = true
    · by_cases h1 : m.Command = "help"
      · simp [hc, h1] at h
        subst h
        exact ⟨rfl, rfl⟩
      · by_cases h2 : m.Command = "stream"
        · simp [hc, h2] at hns
        · by_cases h3 : m.Command = "stop"
          · simp [hc, h3] at h
            subst h
            simp [bot.Send, deleteGroup, World.emit, deleteGroupRow_of_absent _ _ (habs m hm)]
          · simp [hc, h1, h2, h3] at h
    · simp [hc] at h
      rw [h]
      exact ⟨rfl, rfl⟩

/-- C4: a location-bearing update (new or edited message) whose chat has no
subscription row makes the loop dispatch nothing to the broadcast sink, fetch no
picture, and leave the database as it was.  The update is not at the same time
a `stream` command or a removal event, whose own blocks write to the database;
the block `// location edit` itself only records the lookup on every update
(`locationBlock_unsubscribed`). -/
theorem location_without_subscription_dropped (cfg : Configuration) (env : Env) (w : World)
    (u : tgbotapi.Update) (m : tgbotapi.Message) (l : tgbotapi.Location)
    (hm : messageOf u = some m) (hl : m.Location = some l)
    (hs : w.db.selectSecret m.Chat.ID = none)
    (hns : isStreamCommand u = false) (hr : isRemovalUpdate u = false) :
    (∀ e ∈ performed w (updateLoopBody cfg env w u), e.isDispatch = false ∧ e.isFetch = false) ∧
    (updateLoopBody cfg env w u).db = w.db := by
  cases hcb : commandBlock cfg env w u with
  | none => simp [updateLoopBody, hcb, performed_self]
  | some w1 =>
    have habs : ∀ m', u.Message = some m' → w.db.selectSecret m'.Chat.ID = none := by
      intro m' hm'
      rw [messageOf_of_message hm'] at hm
      cases hm
      exact hs
    have hdb := (commandBlock_db_of_notStream cfg env w hcb hns habs).1
    obtain ⟨es1, h1, p1⟩ := commandBlock_trace cfg env w hcb
    have hs1 : w1.db.selectSecret m.Chat.ID = none := by rw [hdb]; exact hs
    have hbody : updateLoopBody cfg env w u = w1.emit (.getSecret m.Chat.ID) := by
      rw [updateLoopBody_of_some cfg env hcb, quitBlock_of_notRemoval w1 hr,
        locationBlock_unsubscribed cfg env hm hl hs1]
    rw [hbody]
    refine ⟨?_, hdb⟩
    have hp : performed w (w1.emit (.getSecret m.Chat.ID)) = es1 ++ [.getSecret m.Chat.ID] := by
      apply performed_append
      simp [World.emit, h1]
    rw [hp]
    intro e he
    simp only [List.mem_append, List.mem_singleton] at he
    rcases he with he | he
    · rcases p1 e he with hrep | ⟨c, hd⟩ | ⟨c, a, ha⟩
      · cases e <;> simp_all [Effect.isReply, Effect.isDispatch, Effect.isFetch]
      · simp [hd, Effect.isDispatch, Effect.isFetch]
      · simp [ha, Effect.isDispatch, Effect.isFetch]
    · simp [he, Effect.isDispatch, Effect.isFetch]

/-- C4, at an instance: user 7 shares a location in chat 5 while no chat has a
subscription. -/
theorem location_without_subscription_dropped_witness :
    messageOf locationUpdate = some { sampleMessage with Location := some ⟨⟨48, 0⟩, ⟨2, 0⟩⟩ } ∧
    emptyWorld.db.selectSecret 5 = none ∧
    isStreamCommand locationUpdate = false ∧ isRemovalUpdate locationUpdate = false ∧
    ((∀ e ∈ performed emptyWorld (updateLoopBody sampleConfig sampleEnv emptyWorld locationUpdate),
        e.isDispatch = false ∧ e.isFetch = false) ∧
      (updateLoopBody sampleConfig sampleEnv emptyWorld locationUpdate).db = emptyWorld.db) :=
  ⟨by decide, by decide, by decide, by decide,
    location_without_subscription_dropped sampleConfig sampleEnv emptyWorld locationUpdate
      { sampleMessage with Location := some ⟨⟨48, 0⟩, ⟨2, 0⟩⟩ } ⟨⟨48, 0⟩, ⟨2, 0⟩⟩
      (by decide) (by decide) (by decide) (by decide) (by decide)⟩

/-- The block `// location edit`, on any update and in any world in which the
chat is subscribed with `s`, picture fetching is enabled, the sender has no
profile and the fetch fails: it looks up the secret and the profile, tries the
fetch, and dispatches one event to `/sub/` followed by `s`, without the picture
key; the database is unchanged. -/
theorem locationBlock_fetch_failed (cfg : Configuration) (env : Env) (w : World)
    (u : tgbotapi.Update) (m : tgbotapi.Message) (l : tgbotapi.Location) (s e : String)
    (hm : messageOf u = some m) (hl : m.Location = some l)
    (hs : w.db.selectSecret m.Chat.ID = some s)
    (hf : cfg.FetchUserPic = true)
    (hu : w.db.selectUserByID m.From.ID = none)
    (hfail : fetchProfilePic env w.calls m.From.ID = .error e) :
    performed w (locationBlock cfg env w u) =
      [.getSecret m.Chat.ID, .getUserInfoByID m.From.ID, .getProfilePic m.From.ID,
        .SendMessage ("/sub/" ++ s)
          { type := "user_location",
            user_location :=
              { Id := m.From.ID, Name := m.From.UserName, Latitude := l.Latitude,
                Longitude := l.Longitude, Date := m.Date },
            picture := none }] ∧
    (locationBlock cfg env w u).db = w.db := by
  have hu' : (w.emit (.getSecret m.Chat.ID)).db.selectUserByID m.From.ID = none := hu
  have hfail' : fetchProfilePic env (w.emit (.getSecret m.Chat.ID)).calls m.From.ID = .error e :=
    hfail
  rw [locationBlock_subscribed cfg env hm hl hs,
    attachPicture_failed (locationEvent m l) hf hu' hfail']
  constructor
  · apply performed_append
    simp [World.emit, json.encode, locationEvent]
  · rfl

/-- C8: for a location-bearing update in a chat subscribed with secret `s`, with
picture fetching enabled, no cached profile of the sender and a failing fetch,
the iteration looks up the secret and the profile, tries the fetch, and
dispatches exactly one event, to `/sub/` followed by `s`, carrying the sender's
id and name, the coordinates and the date, without the picture key; the
database is unchanged, so no profile is created.  The update is not at the same
time a command or a removal event, so that it is processed by the block
`// location edit` alone; `locationBlock_fetch_failed` says the same of the
block on every update. -/
theorem location_sent_when_fetch_fails (cfg : Configuration) (env : Env) (w : World)
    (u : tgbotapi.Update) (m : tgbotapi.Message) (l : tgbotapi.Location) (s e : String)
    (hm : messageOf u = some m) (hl : m.Location = some l)
    (hs : w.db.selectSecret m.Chat.ID = some s)
    (hf : cfg.FetchUserPic = true)
    (hu : w.db.selectUserByID m.From.ID = none)
    (hfail : fetchProfilePic env w.calls m.From.ID = .error e)
    (hc : isCommandUpdate u = false) (hr : isRemovalUpdate u = false) :
    performed w (updateLoopBody cfg env w u) =
      [.getSecret m.Chat.ID, .getUserInfoByID m.From.ID, .getProfilePic m.From.ID,
        .SendMessage ("/sub/" ++ s)
          { type := "user_location",
            user_location :=
              { Id := m.From.ID, Name := m.From.UserName, Latitude := l.Latitude,
                Longitude := l.Longitude, Date := m.Date },
            picture := none }] ∧
    (updateLoopBody cfg env w u).db = w.db := by
  have hbody : updateLoopBody cfg env w u = locationBlock cfg env w u := by
    rw [updateLoopBody_of_some cfg env (commandBlock_of_notCommand cfg env w hc),
      quitBlock_of_notRemoval w hr]
  rw [hbody]
  exact locationBlock_fetch_failed cfg env w u m l s e hm hl hs hf hu hfail

/-- C8, at an instance: user 7, who has no profile, shares a location in chat
5, which streams to `s`, while every fetch fails. -/
theorem location_sent_when_fetch_fails_witness :
    messageOf locationUpdate = some { sampleMessage with Location := some ⟨⟨48, 0⟩, ⟨2, 0⟩⟩ } ∧
    subscribedWorld.db.selectSecret 5 = some "s" ∧
    sampleConfig.FetchUserPic = true ∧
    subscribedWorld.db.selectUserByID 7 = none ∧
    fetchProfilePic sampleEnv subscribedWorld.calls 7 = .error "unavailable" ∧
    isCommandUpdate locationUpdate = false ∧ isRemovalUpdate locationUpdate = false ∧
    (performed subscribedWorld
        (updateLoopBody sampleConfig sampleEnv subscribedWorld locationUpdate) =
      [.getSecret 5, .getUserInfoByID 7, .getProfilePic 7,
        .SendMessage ("/sub/" ++ "s")
          { type := "user_location",
            user_location :=
              { Id := 7, Name := "bob", Latitude := ⟨48, 0⟩, Longitude := ⟨2, 0⟩, Date := 3 },
            picture := none }] ∧
      (updateLoopBody sampleConfig sampleEnv subscribedWorld locationUpdate).db =
        subscribedWorld.db) :=
  ⟨by decide, by decide, by decide, by decide, by rfl, by decide, by decide,
    location_sent_when_fetch_fails sampleConfig sampleEnv subscribedWorld locationUpdate
      { sampleMessage with Location := some ⟨⟨48, 0⟩, ⟨2, 0⟩⟩ } ⟨⟨48, 0⟩, ⟨2, 0⟩⟩ "s"
      "unavailable" (by decide) (by decide) (by decide) (by decide) (by decide) (by rfl)
      (by decide) (by decide)⟩

/-! ## Removal -/

/-- The block `// quit/block`, on any update that carries a membership change
of chat `c` to `left` or `kicked` and in any world: afterwards `c` has no
subscription; in a private chat the profile of user `c` is gone, otherwise the
profile table is the same; the subscriptions of the other chats and the
profiles of the other users are as before; running the block again changes
nothing in the database. -/
theorem quitBlock_revokes (w : World) (u : tgbotapi.Update) (cm : tgbotapi.ChatMemberUpdated)
    (hcm : u.MyChatMember = some cm)
    (hst : cm.NewChatMember.Status = "left" ∨ cm.NewChatMember.Status = "kicked") :
    (quitBlock w u).db.selectSecret cm.Chat.ID = none ∧
    (cm.Chat.IsPrivate = true → (quitBlock w u).db.selectUserByID cm.Chat.ID = none) ∧
    (cm.Chat.IsPrivate = false → (quitBlock w u).db.users = w.db.users) ∧
    (∀ d, d ≠ cm.Chat.ID → (quitBlock w u).db.selectSecret d = w.db.selectSecret d) ∧
    (∀ x, x ≠ cm.Chat.ID → (quitBlock w u).db.selectUserByID x = w.db.selectUserByID x) ∧
    (quitBlock (quitBlock w u) u).db = (quitBlock w u).db := by
  simp only [quitBlock_removal _ hcm hst]
  by_cases hp : cm.Chat.IsPrivate = true
  · simp only [hp, if_true]
    have hsec : ∀ d, ((w.db.deleteGroupRow cm.Chat.ID).deleteUserRow cm.Chat.ID).selectSecret d =
        (w.db.deleteGroupRow cm.Chat.ID).selectSecret d := fun _ => rfl
    have husr : ∀ x, (w.db.deleteGroupRow cm.Chat.ID).selectUserByID x =
        w.db.selectUserByID x := fun _ => rfl
    refine ⟨?_, ?_, ?_, ?_, ?_, ?_⟩
    · rw [hsec, selectSecret_deleteGroupRow]
      simp
    · intro _
      rw [selectUserByID_deleteUserRow]
      simp
    · intro h
      simp at h
    · intro d hd
      rw [hsec, selectSecret_deleteGroupRow]
      simp [hd]
    · intro x hx
      rw [selectUserByID_deleteUserRow, husr]
      simp [hx]
    · simp [DB.deleteGroupRow, DB.deleteUserRow, List.filter_filter]
  · have hp : cm.Chat.IsPrivate = false := by simpa using hp
    simp only [hp, Bool.false_eq_true, if_false]
    refine ⟨?_, ?_, ?_, ?_, ?_, ?_⟩
    · rw [selectSecret_deleteGroupRow]
      simp
    · intro h
      simp at h
    · intro _
      rfl
    · intro d hd
      rw [selectSecret_deleteGroupRow]
      simp [hd]
    · intro x _
      rfl
    · simp [DB.deleteGroupRow, List.filter_filter]

/-- C7: a membership change of chat `c` to `left` or `kicked`, in an update that
is not at the same time a command or a location share (such an update is
processed by the block `// quit/block` alone, and `quitBlock_revokes` says the
same of the block on every update): afterwards `c` has no subscription; in a
private chat the profile of user `c` is gone, otherwise the profile table is
the same; the subscriptions of the other chats and the profiles of the other
users are as before; and processing the same update again changes nothing in
the database. -/
theorem removal_revokes (cfg : Configuration) (env : Env) (w : World)
    (u : tgbotapi.Update) (cm : tgbotapi.ChatMemberUpdated)
    (hcm : u.MyChatMember = some cm)
    (hst : cm.NewChatMember.Status = "left" ∨ cm.NewChatMember.Status = "kicked")
    (hc : isCommandUpdate u = false) (hl : carriesLocation u = false) :
    (updateLoopBody cfg env w u).db.selectSecret cm.Chat.ID = none ∧
    (cm.Chat.IsPrivate = true →
      (updateLoopBody cfg env w u).db.selectUserByID cm.Chat.ID = none) ∧
    (cm.Chat.IsPrivate = false → (updateLoopBody cfg env w u).db.users = w.db.users) ∧
    (∀ d, d ≠ cm.Chat.ID →
      (updateLoopBody cfg env w u).db.selectSecret d = w.db.selectSecret d) ∧
    (∀ x, x ≠ cm.Chat.ID →
      (updateLoopBody cfg env w u).db.selectUserByID x = w.db.selectUserByID x) ∧
    (updateLoopBody cfg env (updateLoopBody cfg env w u) u).db =
      (updateLoopBody cfg env w u).db := by
  have hbody : ∀ w0 : World, updateLoopBody cfg env w0 u = quitBlock w0 u := by
    intro w0
    rw [updateLoopBody_of_some cfg env (commandBlock_of_notCommand cfg env w0 hc),
      locationBlock_of_noLocation cfg env _ hl]
  simp only [hbody]
  exact quitBlock_revokes w u cm hcm hst

/-- C7, at an instance: the bot is blocked in the private chat 7, which streams
to `t` and whose user has a profile. -/
theorem removal_revokes_witness :
    (removalUpdate 7 "private").MyChatMember =
      some { Chat := ⟨7, "private"⟩, NewChatMember := ⟨"kicked"⟩ } ∧
    ("kicked" = "left" ∨ "kicked" = "kicked") ∧
    isCommandUpdate (removalUpdate 7 "private") = false ∧
    carriesLocation (removalUpdate 7 "private") = false ∧
    ((updateLoopBody sampleConfig sampleEnv sampleWorld
        (removalUpdate 7 "private")).db.selectSecret 7 = none ∧
    ((⟨7, "private"⟩ : tgbotapi.Chat).IsPrivate = true →
      (updateLoopBody sampleConfig sampleEnv sampleWorld
        (removalUpdate 7 "private")).db.selectUserByID 7 = none) ∧
    ((⟨7, "private"⟩ : tgbotapi.Chat).IsPrivate = false →
      (updateLoopBody sampleConfig sampleEnv sampleWorld
        (removalUpdate 7 "private")).db.users = sampleWorld.db.users) ∧
    (∀ d, d ≠ 7 →
      (updateLoopBody sampleConfig sampleEnv sampleWorld
        (removalUpdate 7 "private")).db.selectSecret d = sampleWorld.db.selectSecret d) ∧
    (∀ x, x ≠ 7 →
      (updateLoopBody sampleConfig sampleEnv sampleWorld
        (removalUpdate 7 "private")).db.selectUserByID x = sampleWorld.db.selectUserByID x) ∧
    (updateLoopBody sampleConfig sampleEnv
        (updateLoopBody sampleConfig sampleEnv sampleWorld (removalUpdate 7 "private"))
        (removalUpdate 7 "private")).db =
      (updateLoopBody sampleConfig sampleEnv sampleWorld (removalUpdate 7 "private")).db) :=
  ⟨by decide, by decide, by decide, by decide,
    removal_revokes sampleConfig sampleEnv sampleWorld (removalUpdate 7 "private")
      { Chat := ⟨7, "private"⟩, NewChatMember := ⟨"kicked"⟩ }
      (by decide) (by decide) (by decide) (by decide)⟩


/-! ## Picture endpoint -/

theorem splitChars_of_not_mem (sep : Char) :
    ∀ l : List Char, sep ∉ l → splitChars sep l = [l]
  | [], _ => rfl
  | c :: cs, h => by
    have hc : ¬ c = sep := fun e => h (by simp [e])
    have ht : sep ∉ cs := fun e => h (by simp [e])
    simp [splitChars, hc, splitChars_of_not_mem sep cs ht]

/-- A GET request for `/pic/` followed by a handle that has a record is
answered with the stored picture: `picHandler` only writes the bytes, so the
status is 200. -/
theorem picHandler_get_known (w : World) (r : Request) (h : String) (ui : UserInfo)
    (hm : r.Method = "GET") (hp : r.Path = "/pic/" ++ h) (hh : '/' ∉ h.data)
    (hu : w.db.selectUserByUUID h = some ui) :
    picHandler w r = [.Write ui.ProfilePic] := by
  have hsplit : Split r.Path '/' = ["", "pic", h] := by
    have hd : r.Path.data = '/' :: 'p' :: 'i' :: 'c' :: '/' :: h.data := by
      rw [hp, String.data_append]
      rfl
    simp [Split, hd, splitChars, splitChars_of_not_mem '/' h.data hh]
  simp [picHandler, hm, hsplit, getUserInfoByUUID, hu]

/-- A GET request is answered either with a stored picture or with a bare
404. -/
theorem picHandler_get (w : World) (r : Request) (hm : r.Method = "GET") :
    (∃ ui, w.db.selectUserByUUID ((Split r.Path '/').getD 2 "") = some ui ∧
      picHandler w r = [.Write ui.ProfilePic]) ∨
    picHandler w r = [.WriteHeader 404] := by
  unfold picHandler
  simp only [hm, ne_eq, not_true_eq_false, if_false]
  by_cases hc : (Split r.Path '/').length = 3 ∧ (Split r.Path '/').getD 1 "" = "pic"
  · simp only [hc, and_self, if_true, getUserInfoByUUID]
    cases hu : w.db.selectUserByUUID ((Split r.Path '/').getD 2 "") with
    | none => exact Or.inr rfl
    | some ui => exact Or.inl ⟨ui, rfl, rfl⟩
  · simp only [hc, if_false]
    exact Or.inr trivial

/-- C6: for a request whose method is not GET, `picHandler` returns without a
call on the response writer; the server then answers with status 200 and an
empty body, where the other rejecting path of the handler answers 404. -/
theorem picHandler_other_method (w : World) (r : Request) (hm : r.Method ≠ "GET") :
    picHandler w r = [] ∧ statusOf (picHandler w r) = 200 ∧ bodyOf (picHandler w r) = [] := by
  have h : picHandler w r = [] := by simp [picHandler, hm]
  rw [h]
  exact ⟨rfl, rfl, rfl⟩

/-- C6, at an instance: a POST for the picture of a known handle. -/
theorem picHandler_other_method_witness :
    ("POST" : String) ≠ "GET" ∧
    (picHandler sampleWorld ⟨"POST", "/pic/h7"⟩ = [] ∧
      statusOf (picHandler sampleWorld ⟨"POST", "/pic/h7"⟩) = 200 ∧
      bodyOf (picHandler sampleWorld ⟨"POST", "/pic/h7"⟩) = []) :=
  ⟨by decide, picHandler_other_method sampleWorld ⟨"POST", "/pic/h7"⟩ (by decide)⟩

/-! ## Independence of the three blocks -/

/-- C10, as stated, fails: the update `startUpdate` is a command with the
unrecognised word `start` that also carries a removal of the bot from chat 5 and
a location; the iteration does nothing at all, so neither the membership
handling nor the location handling runs and chat 5 keeps its subscription. -/
theorem unknown_command_skips_other_categories :
    isRemovalUpdate startUpdate = true ∧ carriesLocation startUpdate = true ∧
    updateLoopBody sampleConfig sampleEnv sampleWorld startUpdate = sampleWorld ∧
    Effect.deleteGroup 5 ∉
      performed sampleWorld (updateLoopBody sampleConfig sampleEnv sampleWorld startUpdate) ∧
    Effect.getSecret 5 ∉
      performed sampleWorld (updateLoopBody sampleConfig sampleEnv sampleWorld startUpdate) ∧
    (updateLoopBody sampleConfig sampleEnv sampleWorld startUpdate).db.selectSecret 5 =
      some "s" := by
  decide

/-- C10 (amended): for every update that is not a command with a word other
than `help`, `stream`, `stop` (so also for every update that is one of these
three commands), the membership handling runs whenever the update carries a
membership change to `left` or `kicked` (`deleteGroup` is called, `deleteUser`
too in a private chat, and the chat has no subscription afterwards), and the
location handling runs whenever the message or edited message carries a
location (`getSecret` is called for its chat).  A command with another word
ends the iteration at once. -/
theorem categories_checked_unless_unknown (cfg : Configuration) (env : Env) (w : World)
    (u : tgbotapi.Update) (hk : isUnknownCommand u = false) :
    (∀ cm, u.MyChatMember = some cm →
      (cm.NewChatMember.Status = "left" ∨ cm.NewChatMember.Status = "kicked") →
      Effect.deleteGroup cm.Chat.ID ∈ performed w (updateLoopBody cfg env w u) ∧
      (cm.Chat.IsPrivate = true →
        Effect.deleteUser cm.Chat.ID ∈ performed w (updateLoopBody cfg env w u)) ∧
      (updateLoopBody cfg env w u).db.selectSecret cm.Chat.ID = none) ∧
    (∀ m l, messageOf u = some m → m.Location = some l →
      Effect.getSecret m.Chat.ID ∈ performed w (updateLoopBody cfg env w u)) ∧
    (∀ v, isUnknownCommand v = true → updateLoopBody cfg env w v = w) := by
  obtain ⟨w1, hcb⟩ := commandBlock_known cfg env w hk
  obtain ⟨es1, es2, es3, h1, h2, hp, _, _, _⟩ := updateLoopBody_trace cfg env w hcb
  have h3 : (updateLoopBody cfg env w u).trace = w.trace ++ (es1 ++ es2 ++ es3) := by
    obtain ⟨es3', h3', _⟩ := locationBlock_trace cfg env (quitBlock w1 u) u
    have hp' : performed w (updateLoopBody cfg env w u) = es1 ++ es2 ++ es3' := by
      apply performed_append
      rw [updateLoopBody_of_some cfg env hcb, h3', h2, h1]
      simp only [List.append_assoc]
    rw [hp] at hp'
    rw [hp', updateLoopBody_of_some cfg env hcb, h3', h2, h1]
    simp only [List.append_assoc]
  refine ⟨?_, ?_, fun v hv => updateLoopBody_of_unknown cfg env w hv⟩
  · intro cm hcm hst
    have hq := quitBlock_removal w1 hcm hst
    have hes2 : es2 = if cm.Chat.IsPrivate = true then
        [.deleteGroup cm.Chat.ID, .deleteUser cm.Chat.ID] else [.deleteGroup cm.Chat.ID] := by
      rw [hq] at h2
      by_cases hpr : cm.Chat.IsPrivate = true
      · simp only [hpr, if_true] at h2 ⊢
        exact (List.append_cancel_left h2).symm
      · simp only [hpr, if_false] at h2 ⊢
        exact (List.append_cancel_left h2).symm
    refine ⟨?_, ?_, ?_⟩
    · rw [hp, hes2]
      by_cases hpr : cm.Chat.IsPrivate = true <;> simp [hpr]
    · intro hpr
      rw [hp, hes2]
      simp [hpr]
    · rw [updateLoopBody_of_some cfg env hcb, locationBlock_secret, hq]
      by_cases hpr : cm.Chat.IsPrivate = true
      · simp only [hpr, if_true]
        have : ((w1.db.deleteGroupRow cm.Chat.ID).deleteUserRow cm.Chat.ID).selectSecret
            cm.Chat.ID = (w1.db.deleteGroupRow cm.Chat.ID).selectSecret cm.Chat.ID := rfl
        rw [this, selectSecret_deleteGroupRow]
        simp
      · have hpr : cm.Chat.IsPrivate = false := by simpa using hpr
        simp only [hpr, Bool.false_eq_true, if_false]
        rw [selectSecret_deleteGroupRow]
        simp
  · intro m l hm hl
    rw [hp]
    have hmem : Effect.getSecret m.Chat.ID ∈ es3 := by
      have hl3 : (locationBlock cfg env (quitBlock w1 u) u).trace =
          (quitBlock w1 u).trace ++ es3 := by
        have := h3
        rw [updateLoopBody_of_some cfg env hcb] at this
        rw [this, h2, h1]
        simp only [List.append_assoc]
      cases hs : (quitBlock w1 u).db.selectSecret m.Chat.ID with
      | none =>
        rw [locationBlock_unsubscribed cfg env hm hl hs] at hl3
        simp only [World.emit] at hl3
        rw [← List.append_cancel_left hl3]
        simp
      | some channel =>
        rw [locationBlock_subscribed cfg env hm hl hs] at hl3
        obtain ⟨es, hes, _⟩ := attachPicture_trace cfg env
          ((quitBlock w1 u).emit (.getSecret m.Chat.ID)) m.From.ID (locationEvent m l)
        simp only [World.emit] at hl3 hes
        rw [hes] at hl3
        simp only [List.append_assoc] at hl3
        rw [← List.append_cancel_left hl3]
        simp
    simp [hmem]

/-- C10 (amended), at an instance: the update `helpUpdate` is the recognised
command `/help` and also carries a removal of the bot from chat 5 and a
location shared in chat 5; both `deleteGroup` and `getSecret` are called for
chat 5. -/
theorem categories_checked_unless_unknown_witness :
    isUnknownCommand helpUpdate = false ∧
    Effect.deleteGroup 5 ∈
      performed sampleWorld (updateLoopBody sampleConfig sampleEnv sampleWorld helpUpdate) ∧
    (updateLoopBody sampleConfig sampleEnv sampleWorld helpUpdate).db.selectSecret 5 = none ∧
    Effect.getSecret 5 ∈
      performed sampleWorld (updateLoopBody sampleConfig sampleEnv sampleWorld helpUpdate) :=
  ⟨by decide,
    ((categories_checked_unless_unknown sampleConfig sampleEnv sampleWorld helpUpdate
      (by decide)).1 { Chat := ⟨5, "group"⟩, NewChatMember := ⟨"left"⟩ } rfl (Or.inl rfl)).1,
    ((categories_checked_unless_unknown sampleConfig sampleEnv sampleWorld helpUpdate
      (by decide)).1 { Chat := ⟨5, "group"⟩, NewChatMember := ⟨"left"⟩ } rfl (Or.inl rfl)).2.2,
    (categories_checked_unless_unknown sampleConfig sampleEnv sampleWorld helpUpdate
      (by decide)).2.1 { sampleMessage with
        IsCommand := true, Command := "help", Location := some ⟨⟨48, 0⟩, ⟨2, 0⟩⟩ }
      ⟨⟨48, 0⟩, ⟨2, 0⟩⟩ rfl rfl⟩

/-! ## The announced channel is the channel used -/

theorem attachPicture_noDispatch (cfg : Configuration) (env : Env) (w : World) (id : Int)
    (msg : Message) :
    ∃ es, (attachPicture cfg env w id msg).1.trace = w.trace ++ es ∧
      ∀ e ∈ es, e.isDispatch = false ∧ e.isReply = false := by
  rcases attachPicture_cases cfg env w id msg with h | ⟨ui, _, h⟩ | ⟨_, h⟩ | ⟨pic, _, h⟩
  · exact ⟨[], by simp [h], by simp⟩
  · exact ⟨[.getUserInfoByID id], by simp [h, World.emit],
      by simp [Effect.isDispatch, Effect.isReply]⟩
  · exact ⟨[.getUserInfoByID id, .getProfilePic id], by simp [h],
      by simp [Effect.isDispatch, Effect.isReply]⟩
  · exact ⟨[.getUserInfoByID id, .getProfilePic id, .addUserPic id pic], by simp [h],
      by simp [Effect.isDispatch, Effect.isReply]⟩

theorem filter_eq_nil_of_forall {p : Effect → Bool} {es : List Effect}
    (h : ∀ e ∈ es, p e = false) : es.filter p = [] := by
  rw [List.filter_eq_nil_iff]
  intro e he
  simp [h e he]

/-- In a subscribed chat the location block dispatches exactly one event, to
the channel of the stored secret. -/
theorem locationBlock_dispatch (cfg : Configuration) (env : Env) {w : World}
    {u : tgbotapi.Update} {m : tgbotapi.Message} {l : tgbotapi.Location} {channel : String}
    (hm : messageOf u = some m) (hl : m.Location = some l)
    (hs : w.db.selectSecret m.Chat.ID = some channel) :
    ∃ payload, (performed w (locationBlock cfg env w u)).filter Effect.isDispatch =
      [.SendMessage ("/sub/" ++ channel) payload] := by
  rw [locationBlock_subscribed cfg env hm hl hs]
  obtain ⟨es, hes, hall⟩ := attachPicture_noDispatch cfg env (w.emit (.getSecret m.Chat.ID))
    m.From.ID (locationEvent m l)
  refine ⟨json.encode (attachPicture cfg env (w.emit (.getSecret m.Chat.ID)) m.From.ID
    (locationEvent m l)).2, ?_⟩
  have hp : performed w ((attachPicture cfg env (w.emit (.getSecret m.Chat.ID)) m.From.ID
      (locationEvent m l)).1.emit (.SendMessage ("/sub/" ++ channel)
        (json.encode (attachPicture cfg env (w.emit (.getSecret m.Chat.ID)) m.From.ID
          (locationEvent m l)).2))) =
      [.getSecret m.Chat.ID] ++ es ++ [.SendMessage ("/sub/" ++ channel)
        (json.encode (attachPicture cfg env (w.emit (.getSecret m.Chat.ID)) m.From.ID
          (locationEvent m l)).2)] := by
    apply performed_append
    simp only [World.emit] at hes ⊢
    rw [hes]
    simp only [List.append_assoc]
  rw [hp]
  simp only [List.filter_append, filter_eq_nil_of_forall (fun e he => (hall e he).1)]
  simp [Effect.isDispatch]

/-- The location block sends no reply. -/
theorem locationBlock_noReply (cfg : Configuration) (env : Env) (w : World)
    (u : tgbotapi.Update) :
    (performed w (locationBlock cfg env w u)).filter Effect.isReply = [] := by
  obtain ⟨es, hes, hall⟩ := locationBlock_trace cfg env w u
  rw [performed_append hes]
  apply filter_eq_nil_of_forall
  intro e he
  have := hall e he
  cases e <;> simp_all [Effect.fromLocation, Effect.isReply]

/-- C5: after a `stream` command in chat `c` that yields the secret `s`, the
only reply of the iteration is the text that shows `ServerPath`, `/sub/` and
`s`, and `c` is subscribed with `s`; after any further updates none of which is
a stream, stop or removal event for `c`, a location update in `c` is dispatched
exactly once, to the channel `/sub/` followed by `s`.  The world before the
command is arbitrary: `c` may already stream to another secret, which is then
no longer used. -/
theorem stream_reply_names_the_channel_used (cfg : Configuration) (env : Env) (w : World)
    (u1 : tgbotapi.Update) (m1 : tgbotapi.Message) (mid : List tgbotapi.Update)
    (u2 : tgbotapi.Update) (m2 : tgbotapi.Message) (l : tgbotapi.Location)
    (h1 : u1.Message = some m1) (hc1 : m1.IsCommand = true) (hs1 : m1.Command = "stream")
    (hr1 : isRemovalUpdate u1 = false)
    (hmid : ∀ v ∈ mid, touchesSubscription m1.Chat.ID v = false)
    (h2 : messageOf u2 = some m2) (hl2 : m2.Location = some l)
    (hchat : m2.Chat.ID = m1.Chat.ID)
    (hc2 : isCommandUpdate u2 = false) (hr2 : isRemovalUpdate u2 = false) :
    (performed w (updateLoopBody cfg env w u1)).filter Effect.isReply =
      [.Send m1.Chat.ID
        ("Start sharing to `" ++ cfg.ServerPath ++ "/sub/"
          ++ (streamSecret env w m1.CommandArguments).2 ++ "`") "markdown"] ∧
    (updateLoopBody cfg env w u1).db.selectSecret m1.Chat.ID =
      some (streamSecret env w m1.CommandArguments).2 ∧
    ∃ payload,
      (performed (updateLoop cfg env (updateLoopBody cfg env w u1) mid)
          (updateLoopBody cfg env (updateLoop cfg env (updateLoopBody cfg env w u1) mid) u2)
        ).filter Effect.isDispatch =
      [.SendMessage ("/sub/" ++ (streamSecret env w m1.CommandArguments).2) payload] := by
  have hcb := commandBlock_stream cfg env w h1 hc1 hs1
  have hbody1 := updateLoopBody_of_some cfg env hcb
  rw [quitBlock_of_notRemoval _ hr1] at hbody1
  have hsec1 : (updateLoopBody cfg env w u1).db.selectSecret m1.Chat.ID =
      some (streamSecret env w m1.CommandArguments).2 := by
    rw [hbody1, locationBlock_secret]
    simp [bot.Send, addGroup, World.emit, selectSecret_replaceGroup]
  refine ⟨?_, hsec1, ?_⟩
  · obtain ⟨es3, h3, _⟩ := locationBlock_trace cfg env
      (bot.Send (addGroup (streamSecret env w m1.CommandArguments).1 m1.Chat.ID
        (streamSecret env w m1.CommandArguments).2) m1.Chat.ID
        ("Start sharing to `" ++ cfg.ServerPath ++ "/sub/"
          ++ (streamSecret env w m1.CommandArguments).2 ++ "`") "markdown") u1
    have hnr := locationBlock_noReply cfg env
      (bot.Send (addGroup (streamSecret env w m1.CommandArguments).1 m1.Chat.ID
        (streamSecret env w m1.CommandArguments).2) m1.Chat.ID
        ("Start sharing to `" ++ cfg.ServerPath ++ "/sub/"
          ++ (streamSecret env w m1.CommandArguments).2 ++ "`") "markdown") u1
    rw [performed_append h3] at hnr
    have hp : performed w (updateLoopBody cfg env w u1) =
        [.addGroup m1.Chat.ID (streamSecret env w m1.CommandArguments).2,
          .Send m1.Chat.ID ("Start sharing to `" ++ cfg.ServerPath ++ "/sub/"
            ++ (streamSecret env w m1.CommandArguments).2 ++ "`") "markdown"] ++ es3 := by
      apply performed_append
      rw [hbody1, h3]
      simp [bot.Send, addGroup, World.emit, (streamSecret_db env w m1.CommandArguments).2]
    rw [hp, List.filter_append, hnr]
    simp [Effect.isReply]
  · have hsec2 : (updateLoop cfg env (updateLoopBody cfg env w u1) mid).db.selectSecret
        m2.Chat.ID = some (streamSecret env w m1.CommandArguments).2 := by
      rw [hchat, updateLoop_secret cfg env m1.Chat.ID mid _ hmid, hsec1]
    have hbody2 : ∀ w0 : World, updateLoopBody cfg env w0 u2 = locationBlock cfg env w0 u2 := by
      intro w0
      rw [updateLoopBody_of_some cfg env (commandBlock_of_notCommand cfg env w0 hc2),
        quitBlock_of_notRemoval w0 hr2]
    rw [hbody2]
    exact locationBlock_dispatch cfg env h2 hl2 hsec2

/-- C5, at an instance: chat 5, which streams to `s`, sends `/stream abc`; then
chat 7 is removed; then user 7 shares a location in chat 5. -/
theorem stream_reply_names_the_channel_used_witness :
    (streamUpdate "abc").Message =
      some { sampleMessage with IsCommand := true, Command := "stream",
                                CommandArguments := "abc" } ∧
    isRemovalUpdate (streamUpdate "abc") = false ∧
    (∀ v ∈ [removalUpdate 7 "private"], touchesSubscription 5 v = false) ∧
    messageOf locationUpdate = some { sampleMessage with Location := some ⟨⟨48, 0⟩, ⟨2, 0⟩⟩ } ∧
    isCommandUpdate locationUpdate = false ∧ isRemovalUpdate locationUpdate = false ∧
    ((performed sampleWorld
        (updateLoopBody sampleConfig sampleEnv sampleWorld (streamUpdate "abc"))).filter
        Effect.isReply =
      [.Send 5
        ("Start sharing to `" ++ sampleConfig.ServerPath ++ "/sub/"
          ++ (streamSecret sampleEnv sampleWorld "abc").2 ++ "`") "markdown"] ∧
    (updateLoopBody sampleConfig sampleEnv sampleWorld (streamUpdate "abc")).db.selectSecret 5 =
      some (streamSecret sampleEnv sampleWorld "abc").2 ∧
    ∃ payload,
      (performed
          (updateLoop sampleConfig sampleEnv
            (updateLoopBody sampleConfig sampleEnv sampleWorld (streamUpdate "abc"))
            [removalUpdate 7 "private"])
          (updateLoopBody sampleConfig sampleEnv
            (updateLoop sampleConfig sampleEnv
              (updateLoopBody sampleConfig sampleEnv sampleWorld (streamUpdate "abc"))
              [removalUpdate 7 "private"])
            locationUpdate)).filter Effect.isDispatch =
      [.SendMessage ("/sub/" ++ (streamSecret sampleEnv sampleWorld "abc").2) payload]) :=
  ⟨by decide, by decide, by decide, by decide, by decide, by decide,
    stream_reply_names_the_channel_used sampleConfig sampleEnv sampleWorld (streamUpdate "abc")
      { sampleMessage with IsCommand := true, Command := "stream", CommandArguments := "abc" }
      [removalUpdate 7 "private"] locationUpdate
      { sampleMessage with Location := some ⟨⟨48, 0⟩, ⟨2, 0⟩⟩ } ⟨⟨48, 0⟩, ⟨2, 0⟩⟩
      (by decide) (by decide) (by decide) (by decide) (by decide) (by decide) (by decide)
      (by decide) (by decide) (by decide)⟩


/-! ## Stability of the opaque handle -/

/-- The block `// quit/block` keeps a profile unless it calls `deleteUser` for
that very user. -/
theorem quitBlock_user_kept (w : World) (u : tgbotapi.Update) {x : Int} {ui : UserInfo}
    (hx : w.db.selectUserByID x = some ui) :
    (quitBlock w u).db.selectUserByID x = some ui ∨
      Effect.deleteUser x ∈ performed w (quitBlock w u) := by
  by_cases hr : isRemovalUpdate u = true
  · unfold isRemovalUpdate at hr
    cases hm : u.MyChatMember with
    | none => rw [hm] at hr; simp at hr
    | some cm =>
      rw [hm] at hr
      simp only [decide_eq_true_eq] at hr
      rw [quitBlock_removal w hm hr]
      by_cases hp : cm.Chat.IsPrivate = true
      · simp only [hp, if_true]
        by_cases hxc : x = cm.Chat.ID
        · right
          simp [performed, hxc]
        · left
          rw [selectUserByID_deleteUserRow]
          simpa [hxc, DB.selectUserByID, DB.deleteGroupRow] using hx
      · left
        simpa [hp, DB.selectUserByID, DB.deleteGroupRow] using hx
  · have hr : isRemovalUpdate u = false := by simpa using hr
    rw [quitBlock_of_notRemoval w hr]
    exact Or.inl hx

/-- Every iteration only appends to the trace. -/
theorem updateLoopBody_extends (cfg : Configuration) (env : Env) (w : World)
    (u : tgbotapi.Update) : ∃ es, (updateLoopBody cfg env w u).trace = w.trace ++ es := by
  cases hcb : commandBlock cfg env w u with
  | none => exact ⟨[], by simp [updateLoopBody, hcb]⟩
  | some w1 =>
    obtain ⟨es1, h1, _⟩ := commandBlock_trace cfg env w hcb
    obtain ⟨es2, h2, _⟩ := quitBlock_trace w1 u
    obtain ⟨es3, h3, _⟩ := locationBlock_trace cfg env (quitBlock w1 u) u
    exact ⟨es1 ++ es2 ++ es3, by
      rw [updateLoopBody_of_some cfg env hcb, h3, h2, h1]
      simp only [List.append_assoc]⟩

theorem updateLoop_extends (cfg : Configuration) (env : Env) :
    ∀ (us : List tgbotapi.Update) (w : World),
      ∃ es, (updateLoop cfg env w us).trace = w.trace ++ es
  | [], w => ⟨[], by simp [updateLoop]⟩
  | u :: us, w => by
    obtain ⟨es1, h1⟩ := updateLoopBody_extends cfg env w u
    obtain ⟨es2, h2⟩ := updateLoop_extends cfg env us (updateLoopBody cfg env w u)
    exact ⟨es1 ++ es2, by rw [updateLoop_cons, h2, h1, List.append_assoc]⟩

theorem mem_performed_left {w w1 w2 : World} {e : Effect}
    (h12 : ∃ es, w2.trace = w1.trace ++ es) (h01 : ∃ es, w1.trace = w.trace ++ es)
    (he : e ∈ performed w w1) : e ∈ performed w w2 := by
  obtain ⟨a, ha⟩ := h01
  obtain ⟨b, hb⟩ := h12
  rw [performed_append ha] at he
  have : w2.trace = w.trace ++ (a ++ b) := by rw [hb, ha, List.append_assoc]
  rw [performed_append this]
  simp [he]

theorem mem_performed_right {w w1 w2 : World} {e : Effect}
    (h12 : ∃ es, w2.trace = w1.trace ++ es) (h01 : ∃ es, w1.trace = w.trace ++ es)
    (he : e ∈ performed w1 w2) : e ∈ performed w w2 := by
  obtain ⟨a, ha⟩ := h01
  obtain ⟨b, hb⟩ := h12
  rw [performed_append hb] at he
  have : w2.trace = w.trace ++ (a ++ b) := by rw [hb, ha, List.append_assoc]
  rw [performed_append this]
  simp [he]

/-- One iteration keeps every profile it finds, unless it calls `deleteUser`
for that user. -/
theorem updateLoopBody_user_kept (cfg : Configuration) (env : Env) (w : World)
    (u : tgbotapi.Update) {x : Int} {ui : UserInfo}
    (hx : w.db.selectUserByID x = some ui) :
    (updateLoopBody cfg env w u).db.selectUserByID x = some ui ∨
      Effect.deleteUser x ∈ performed w (updateLoopBody cfg env w u) := by
  cases hcb : commandBlock cfg env w u with
  | none =>
    left
    simpa [updateLoopBody, hcb] using hx
  | some w1 =>
    have hx1 : w1.db.selectUserByID x = some ui := by
      unfold DB.selectUserByID
      rw [commandBlock_users cfg env w hcb]
      exact hx
    rw [updateLoopBody_of_some cfg env hcb]
    rcases quitBlock_user_kept w1 u hx1 with hq | hq
    · exact Or.inl (locationBlock_user cfg env _ u hq)
    · right
      obtain ⟨es1, h1, _⟩ := commandBlock_trace cfg env w hcb
      obtain ⟨es2, h2, _⟩ := quitBlock_trace w1 u
      obtain ⟨es3, h3, _⟩ := locationBlock_trace cfg env (quitBlock w1 u) u
      have hq' : Effect.deleteUser x ∈ performed w (quitBlock w1 u) :=
        mem_performed_right ⟨es2, h2⟩ ⟨es1, h1⟩ hq
      exact mem_performed_left ⟨es3, h3⟩ ⟨es1 ++ es2, by rw [h2, h1, List.append_assoc]⟩ hq'

/-- A run of the loop keeps every profile it finds, unless it calls
`deleteUser` for that user. -/
theorem updateLoop_user_kept (cfg : Configuration) (env : Env) {x : Int} {ui : UserInfo} :
    ∀ (us : List tgbotapi.Update) (w : World), w.db.selectUserByID x = some ui →
      (updateLoop cfg env w us).db.selectUserByID x = some ui ∨
        Effect.deleteUser x ∈ performed w (updateLoop cfg env w us)
  | [], _, hx => Or.inl hx
  | u :: us, w, hx => by
    rw [updateLoop_cons]
    rcases updateLoopBody_user_kept cfg env w u hx with h | h
    · rcases updateLoop_user_kept cfg env us _ h with h' | h'
      · exact Or.inl h'
      · exact Or.inr (mem_performed_right (updateLoop_extends cfg env us _)
          (updateLoopBody_extends cfg env w u) h')
    · exact Or.inr (mem_performed_left (updateLoop_extends cfg env us _)
        (updateLoopBody_extends cfg env w u) h)

/-- With a cached profile of the sender, the location block neither fetches a
picture nor calls `addUserPic`. -/
theorem locationBlock_cached (cfg : Configuration) (env : Env) (w : World)
    (u : tgbotapi.Update) {m : tgbotapi.Message} {ui : UserInfo}
    (hm : messageOf u = some m) (hx : w.db.selectUserByID m.From.ID = some ui) :
    ∀ e ∈ performed w (locationBlock cfg env w u), e.isFetch = false ∧ e.isAddUserPic = false := by
  cases hl : m.Location with
  | none => simp [locationBlock_noLocation cfg env w hm hl, performed_self]
  | some l =>
    cases hs : w.db.selectSecret m.Chat.ID with
    | none =>
      rw [locationBlock_unsubscribed cfg env hm hl hs]
      have : performed w (w.emit (.getSecret m.Chat.ID)) = [.getSecret m.Chat.ID] :=
        performed_append rfl
      simp [this, Effect.isFetch, Effect.isAddUserPic]
    | some channel =>
      rw [locationBlock_subscribed cfg env hm hl hs]
      have hx' : (w.emit (.getSecret m.Chat.ID)).db.selectUserByID m.From.ID = some ui := hx
      rcases attachPicture_cases cfg env (w.emit (.getSecret m.Chat.ID)) m.From.ID
        (locationEvent m l) with h | ⟨ui', _, h⟩ | ⟨hn, _⟩ | ⟨pic, hn, _⟩
      · rw [h]
        have : performed w ((w.emit (.getSecret m.Chat.ID)).emit
            (.SendMessage ("/sub/" ++ channel) (json.encode (locationEvent m l)))) =
            [.getSecret m.Chat.ID,
              .SendMessage ("/sub/" ++ channel) (json.encode (locationEvent m l))] := by
          apply performed_append
          simp [World.emit]
        simp [this, Effect.isFetch, Effect.isAddUserPic]
      · rw [h]
        have : performed w ((w.emit (.getSecret m.Chat.ID)).emit
              (.getUserInfoByID m.From.ID) |>.emit
            (.SendMessage ("/sub/" ++ channel) (json.encode
              { locationEvent m l with PicPath := cfg.ServerPath ++ "/pic/" ++ ui'.UUID }))) =
            [.getSecret m.Chat.ID, .getUserInfoByID m.From.ID,
              .SendMessage ("/sub/" ++ channel) (json.encode
                { locationEvent m l with PicPath := cfg.ServerPath ++ "/pic/" ++ ui'.UUID })] := by
          apply performed_append
          simp [World.emit]
        simp [this, Effect.isFetch, Effect.isAddUserPic]
      · rw [hx'] at hn
        exact absurd hn (by simp)
      · rw [hx'] at hn
        exact absurd hn (by simp)

/-- C9: (1) an update that is not at once a removal event and a location share
leaves the record of every user who has a profile before and after it as it
is, handle included; (2) across any sequence of updates whatsoever, a user who
has a profile at both ends has the same handle unless `deleteUser` was called
for that user in between, so the handle only changes by deletion and
re-creation; (3) a location share, in an update that is not also a removal
event, by a sender who has a cached profile causes no call of `getProfilePic`
and no call of `addUserPic` (`locationBlock_cached` says the same of the block
`// location edit` on every update). -/
theorem handle_stable (cfg : Configuration) (env : Env) :
    (∀ (w : World) (u : tgbotapi.Update) (x : Int) (ui ui' : UserInfo),
      (isRemovalUpdate u = false ∨ carriesLocation u = false) →
      w.db.selectUserByID x = some ui →
      (updateLoopBody cfg env w u).db.selectUserByID x = some ui' →
      ui'.UUID = ui.UUID ∧ ui' = ui) ∧
    (∀ (w : World) (us : List tgbotapi.Update) (x : Int) (ui ui' : UserInfo),
      w.db.selectUserByID x = some ui →
      (updateLoop cfg env w us).db.selectUserByID x = some ui' →
      ui'.UUID = ui.UUID ∨ Effect.deleteUser x ∈ performed w (updateLoop cfg env w us)) ∧
    (∀ (w : World) (u : tgbotapi.Update) (m : tgbotapi.Message) (l : tgbotapi.Location)
      (ui : UserInfo),
      messageOf u = some m → m.Location = some l → isRemovalUpdate u = false →
      w.db.selectUserByID m.From.ID = some ui →
      ∀ e ∈ performed w (updateLoopBody cfg env w u),
        e.isFetch = false ∧ e.isAddUserPic = false) := by
  refine ⟨?_, ?_, ?_⟩
  · intro w u x ui ui' hex hb ha
    have key : ui' = ui := by
      cases hcb : commandBlock cfg env w u with
      | none =>
        rw [show updateLoopBody cfg env w u = w by simp [updateLoopBody, hcb], hb] at ha
        exact (Option.some.inj ha).symm
      | some w1 =>
        have hx1 : w1.db.selectUserByID x = some ui := by
          unfold DB.selectUserByID
          rw [commandBlock_users cfg env w hcb]
          exact hb
        rw [updateLoopBody_of_some cfg env hcb] at ha
        rcases hex with hr | hl
        · rw [quitBlock_of_notRemoval w1 hr, locationBlock_user cfg env w1 u hx1] at ha
          exact (Option.some.inj ha).symm
        · rw [locationBlock_of_noLocation cfg env _ hl] at ha
          have := quitBlock_user w1 u ha
          rw [hx1] at this
          exact (Option.some.inj this).symm
    exact ⟨by rw [key], key⟩
  · intro w us x ui ui' hb ha
    rcases updateLoop_user_kept cfg env us w hb with h | h
    · rw [h] at ha
      left
      rw [← Option.some.inj ha]
    · exact Or.inr h
  · intro w u m l ui hm _ hr hx
    cases hcb : commandBlock cfg env w u with
    | none => simp [updateLoopBody, hcb, performed_self]
    | some w1 =>
      have hx1 : w1.db.selectUserByID m.From.ID = some ui := by
        unfold DB.selectUserByID
        rw [commandBlock_users cfg env w hcb]
        exact hx
      obtain ⟨es1, h1, p1⟩ := commandBlock_trace cfg env w hcb
      obtain ⟨es3, h3, _⟩ := locationBlock_trace cfg env w1 u
      have hloc := locationBlock_cached cfg env w1 u hm hx1
      rw [performed_append h3] at hloc
      have hp : performed w (updateLoopBody cfg env w u) = es1 ++ es3 := by
        apply performed_append
        rw [updateLoopBody_of_some cfg env hcb, quitBlock_of_notRemoval w1 hr, h3, h1,
          List.append_assoc]
      rw [hp]
      intro e he
      simp only [List.mem_append] at he
      rcases he with he | he
      · rcases p1 e he with hrep | ⟨c, hd⟩ | ⟨c, a, hadd⟩
        · cases e <;> simp_all [Effect.isReply, Effect.isFetch, Effect.isAddUserPic]
        · simp [hd, Effect.isFetch, Effect.isAddUserPic]
        · simp [hadd, Effect.isFetch, Effect.isAddUserPic]
      · exact hloc e he

/-- C9, at an instance: user 7, who has the handle `h7`, shares a location in
chat 5 while picture fetching is on. -/
theorem handle_stable_witness :
    (isRemovalUpdate locationUpdate = false ∨ carriesLocation locationUpdate = false) ∧
    sampleWorld.db.selectUserByID 7 = some ⟨7, "h7", [1, 2]⟩ ∧
    (updateLoopBody sampleConfig sampleEnv sampleWorld locationUpdate).db.selectUserByID 7 =
      some ⟨7, "h7", [1, 2]⟩ ∧
    messageOf locationUpdate = some { sampleMessage with Location := some ⟨⟨48, 0⟩, ⟨2, 0⟩⟩ } ∧
    ((⟨7, "h7", [1, 2]⟩ : UserInfo).UUID = (⟨7, "h7", [1, 2]⟩ : UserInfo).UUID ∧
      (⟨7, "h7", [1, 2]⟩ : UserInfo) = ⟨7, "h7", [1, 2]⟩) ∧
    (∀ e ∈ performed sampleWorld (updateLoopBody sampleConfig sampleEnv sampleWorld locationUpdate),
      e.isFetch = false ∧ e.isAddUserPic = false) :=
  ⟨by decide, by decide, by decide, by decide,
    (handle_stable sampleConfig sampleEnv).1 sampleWorld locationUpdate 7 ⟨7, "h7", [1, 2]⟩
      ⟨7, "h7", [1, 2]⟩ (by decide) (by decide) (by decide),
    (handle_stable sampleConfig sampleEnv).2.2 sampleWorld locationUpdate
      { sampleMessage with Location := some ⟨⟨48, 0⟩, ⟨2, 0⟩⟩ } ⟨⟨48, 0⟩, ⟨2, 0⟩⟩
      ⟨7, "h7", [1, 2]⟩ (by decide) (by decide) (by decide) (by decide)⟩

end LocBot
